import Mathlib

/-!
Verification of the rule/condition evaluation and template-binding engine of the
Carta-manifestacion-PDF repository, as a shallow embedding in Lean 4.

`src/modules/dsl_evaluator.py`, `src/modules/rule_engine.py`,
`src/modules/context_builder.py`, `src/modules/contract_validator.py`,
`src/modules/renderer_docx.py` and `src/modules/generate.py` are embedded as
executable Lean definitions that follow the Python source line by line.

Modelling conventions for the Python dynamic values:
  * Python `None`, `bool`, `int`, `float`, `str`, `list`, `dict` and
    `datetime.date` are the constructors of `Value`.  Python `float` is
    modelled as a rational number (no claim in scope depends on binary
    floating-point rounding).
  * Python dicts are association lists with unique keys, preserving
    insertion order; `dict.get` is `assocGet`, item assignment is `assocSet`.
  * Where the Python reads a dict key with a default (`d.get(k, v)`), the
    embedding bakes that default into the corresponding structure field.
-/

set_option maxHeartbeats 1000000

namespace Carta

/-- A Python `float`, modelled as an exact (unnormalized) fraction
`num / den` with `den > 0`.  All floats the system manipulates come from
decimal strings or integer arithmetic, so an exact fraction is a faithful
model (binary rounding is out of scope). -/
structure PyFloat where
  num : Int
  den : Nat
deriving DecidableEq, Repr

/-- Value equality of fractions (cross multiplication). -/
def PyFloat.eqv (a b : PyFloat) : Bool := a.num * b.den = b.num * a.den

/-- `a < b` on fractions. -/
def PyFloat.ltb (a b : PyFloat) : Bool := a.num * b.den < b.num * a.den

/-- `a <= b` on fractions. -/
def PyFloat.leb (a b : PyFloat) : Bool := a.num * b.den ≤ b.num * a.den

/-- Embed an integer. -/
def PyFloat.ofInt (n : Int) : PyFloat := ⟨n, 1⟩

/-- Python dynamic values.  `vnum` models a Python `float`. -/
inductive Value where
  | vnull
  | vbool (b : Bool)
  | vint (n : Int)
  | vnum (q : PyFloat)
  | vstr (s : String)
  | vlist (xs : List Value)
  | vdict (entries : List (String × Value))
  | vdate (year month day : Int)

/-- A Python data context: a dict from field names to values. -/
abbrev Data := List (String × Value)

/-- `d.get(k)`: first binding of `k` in an association list. -/
def assocGet {α : Type} (l : List (String × α)) (k : String) : Option α :=
  match l.find? (fun p => p.1 = k) with
  | some p => some p.2
  | none => none

/-- `d[k] = v` on a Python dict: overwrite in place, else append (insertion
order preserved). -/
def assocSet {α : Type} : List (String × α) → String → α → List (String × α)
  | [], k, v => [(k, v)]
  | (k', v') :: rest, k, v =>
      if k' = k then (k, v) :: rest else (k', v') :: assocSet rest k v

/-- Python truthiness (`bool(x)`). -/
def pyTruthy : Value → Bool
  | .vnull => false
  | .vbool b => b
  | .vint n => n != 0
  | .vnum q => q.num != 0
  | .vstr s => s ≠ ""
  | .vlist xs => !xs.isEmpty
  | .vdict es => !es.isEmpty
  | .vdate _ _ _ => true

/-- Characters accepted by Python `str.strip()` (ASCII whitespace). -/
def isPySpace (c : Char) : Bool :=
  c = ' ' || c = '\t' || c = '\n' || c = '\x0d' || c = '\x0c' || c = '\x0b'

/-- Python `str.strip()`. -/
def pyStrip (s : String) : String :=
  ⟨(s.data.dropWhile isPySpace).reverse.dropWhile isPySpace |>.reverse⟩

/-- Digits `0`..`9`. -/
def isAsciiDigit (c : Char) : Bool := '0' ≤ c && c ≤ '9'

/-- Python `str.lower()` (ASCII case folding; every string the system
lower-cases is ASCII). -/
def lowerStr (s : String) : String := ⟨s.data.map Char.toLower⟩

/-- Split a character list on a single separator character. -/
def splitCh (sep : Char) : List Char → List (List Char)
  | [] => [[]]
  | c :: cs =>
      let r := splitCh sep cs
      if c = sep then [] :: r
      else
        match r with
        | [] => [[c]]
        | h :: t => (c :: h) :: t

/-- Python `s.split(sep)` for a one-character separator. -/
def splitStrCh (sep : Char) (s : String) : List String :=
  (splitCh sep s.data).map (fun cs => ⟨cs⟩)

/-- First occurrence of `sep` (non-overlapping scan from the left): the
pieces before and after it. -/
def splitFirst (sep : List Char) : List Char → Option (List Char × List Char)
  | [] => none
  | c :: cs =>
      if sep.isPrefixOf (c :: cs) then some ([], (c :: cs).drop sep.length)
      else
        match splitFirst sep cs with
        | some (l, r) => some (c :: l, r)
        | none => none

/-- Python `s.split(sep)` produces exactly two parts iff `sep` occurs
exactly once in the left-to-right non-overlapping scan; this returns those
two parts in that case. -/
def split2 (sep : List Char) (cs : List Char) : Option (List Char × List Char) :=
  match splitFirst sep cs with
  | none => none
  | some (l, r) => if (splitFirst sep r).isSome then none else some (l, r)

/-- Python `s.replace(pat, rep)` (all non-overlapping occurrences, left to
right), fuelled so that the recursion is structural; the fuel is the input
length, which always suffices since every step consumes a character. -/
def replaceSeqF (pat rep : List Char) : Nat → List Char → List Char
  | _, [] => []
  | 0, cs => cs
  | fuel + 1, c :: cs =>
      if pat ≠ [] ∧ pat.isPrefixOf (c :: cs) then
        rep ++ replaceSeqF pat rep fuel ((c :: cs).drop pat.length)
      else
        c :: replaceSeqF pat rep fuel cs

/-- Python `s.replace(pat, rep)` for strings (empty patterns do not occur
in the embedded code). -/
def strReplace (s pat rep : String) : String :=
  ⟨replaceSeqF pat.data rep.data s.data.length s.data⟩

/-- Parse a run of decimal digits to a natural number. -/
def digitsToNat (cs : List Char) : Nat :=
  cs.foldl (fun acc c => acc * 10 + (c.toNat - '0'.toNat)) 0

/-- Python `int(s)` for a string: optional surrounding whitespace, optional
sign, one or more digits (underscore grouping not modelled). -/
def pyIntOfString (s : String) : Option Int :=
  let cs := (s.data.dropWhile isPySpace).reverse.dropWhile isPySpace |>.reverse
  match cs with
  | [] => none
  | c :: rest =>
      let (neg, digits) :=
        if c = '-' then (true, rest)
        else if c = '+' then (false, rest)
        else (false, c :: rest)
      if digits ≠ [] ∧ digits.all isAsciiDigit then
        let n : Int := digitsToNat digits
        some (if neg then -n else n)
      else none

/-- Python `float(s)` for a string: optional sign, digits with at most one
dot, optional exponent (`inf`/`nan`/underscores not modelled). -/
def pyFloatOfString (s : String) : Option PyFloat :=
  let cs := (s.data.dropWhile isPySpace).reverse.dropWhile isPySpace |>.reverse
  match cs with
  | [] => none
  | c :: rest =>
      let (neg, body0) :=
        if c = '-' then (true, rest)
        else if c = '+' then (false, rest)
        else (false, c :: rest)
      let body := body0.map (fun ch => if ch = 'E' then 'e' else ch)
      let (mantissa, expClause) :=
        match splitCh 'e' body with
        | [m] => (m, some none)
        | [m, e] => (m, some (some e))
        | _ => (body, none)
      match expClause with
      | none => none
      | some expChars =>
        let (intPart, fracPart) :=
          match splitCh '.' mantissa with
          | [i] => (i, some ([] : List Char))
          | [i, f] => (i, some f)
          | _ => (mantissa, none)
        match fracPart with
        | none => none
        | some f =>
          if (intPart ≠ [] ∨ f ≠ []) ∧ intPart.all isAsciiDigit ∧ f.all isAsciiDigit then
            let expOk : Option Int :=
              match expChars with
              | none => some 0
              | some [] => none
              | some (c :: r) =>
                  let (eneg, ed) :=
                    if c = '-' then (true, r)
                    else if c = '+' then (false, r)
                    else (false, c :: r)
                  if ed ≠ [] ∧ ed.all isAsciiDigit then
                    some (if eneg then -(digitsToNat ed : Int) else (digitsToNat ed : Int))
                  else none
            match expOk with
            | none => none
            | some ex =>
              let baseNum : Int := digitsToNat intPart * 10 ^ f.length + digitsToNat f
              let baseDen : Nat := 10 ^ f.length
              let scaled : PyFloat :=
                if ex ≥ 0 then ⟨baseNum * 10 ^ ex.toNat, baseDen⟩
                else ⟨baseNum, baseDen * 10 ^ (-ex).toNat⟩
              some (if neg then ⟨-scaled.num, scaled.den⟩ else scaled)
          else none

/-- Python `float(x)`: `None` and containers raise `TypeError` (`none`). -/
def pyFloat? : Value → Option PyFloat
  | .vbool b => some (.ofInt (if b then 1 else 0))
  | .vint n => some (.ofInt n)
  | .vnum q => some q
  | .vstr s => pyFloatOfString s
  | _ => none

/-- Decimal digits of `num / den` after the point (long division), up to
`fuel` digits. -/
def fracDigits (den : Nat) : Nat → Nat → String
  | _, 0 => ""
  | 0, _ => ""
  | r, fuel + 1 =>
      let d := r * 10 / den
      let r' := r * 10 % den
      toString d ++ fracDigits den r' fuel

/-- Render a `PyFloat` as Python renders the corresponding value (exact for
terminating decimals, which covers every float the system produces; Python
repr shortest-digits behaviour is approximated by the exact expansion). -/
def ratStr (q : PyFloat) : String :=
  let sgn := if q.num < 0 then "-" else ""
  let na := q.num.natAbs
  let ip := na / q.den
  let r := na % q.den
  if r = 0 then sgn ++ toString ip ++ ".0"
  else sgn ++ toString ip ++ "." ++ fracDigits q.den r 30

/-- Zero-pad a natural number to two digits. -/
def pad2 (n : Int) : String :=
  if 0 ≤ n ∧ n < 10 then "0" ++ toString n else toString n

mutual
/-- Python `str(x)`. -/
def pyStr : Value → String
  | .vnull => "None"
  | .vbool b => if b then "True" else "False"
  | .vint n => toString n
  | .vnum q => ratStr q
  | .vstr s => s
  | .vlist xs => "[" ++ String.intercalate ", " (pyReprList xs) ++ "]"
  | .vdict es => "\x7b" ++ String.intercalate ", " (pyReprEntries es) ++ "\x7d"
  | .vdate y m d => toString y ++ "-" ++ pad2 m ++ "-" ++ pad2 d

/-- `repr` of each list element (strings are quoted). -/
def pyReprList : List Value → List String
  | [] => []
  | .vstr s :: vs => ("'" ++ s ++ "'") :: pyReprList vs
  | v :: vs => pyStr v :: pyReprList vs

/-- `repr` of each dict entry. -/
def pyReprEntries : List (String × Value) → List String
  | [] => []
  | (k, .vstr s) :: es => ("'" ++ k ++ "': '" ++ s ++ "'") :: pyReprEntries es
  | (k, v) :: es => ("'" ++ k ++ "': " ++ pyStr v) :: pyReprEntries es
end

/-- Python `repr(x)` (string escapes are not modelled). -/
def pyRepr : Value → String
  | .vstr s => "'" ++ s ++ "'"
  | v => pyStr v

/-- Numeric view used by Python `==` across `bool`/`int`/`float`. -/
def numView : Value → Option PyFloat
  | .vbool b => some (.ofInt (if b then 1 else 0))
  | .vint n => some (.ofInt n)
  | .vnum q => some q
  | _ => none

mutual
/-- Python `==` on dynamic values. -/
def pyEq : Value → Value → Bool
  | a, b =>
    match numView a, numView b with
    | some x, some y => x.eqv y
    | _, _ =>
      match a, b with
      | .vnull, .vnull => true
      | .vstr s, .vstr t => s = t
      | .vdate y m d, .vdate y' m' d' => y = y' && m = m' && d = d'
      | .vlist xs, .vlist ys => pyEqList xs ys
      | .vdict es, .vdict fs => es.length = fs.length && pyEqEntries es fs
      | _, _ => false

def pyEqList : List Value → List Value → Bool
  | [], [] => true
  | x :: xs, y :: ys => pyEq x y && pyEqList xs ys
  | _, _ => false

/-- Dict equality: equal size and every key of the left dict maps to an equal
value in the right dict (keys are unique in Python dicts). -/
def pyEqEntries : List (String × Value) → List (String × Value) → Bool
  | [], _ => true
  | (k, v) :: es, fs =>
      (match assocGet fs k with
       | some w => pyEq v w
       | none => false) && pyEqEntries es fs
end

/-- `needle.isPrefixOf`-based substring test: Python `needle in hay`. -/
def sublistAt : List Char → List Char → Bool
  | hs, ns =>
    ns.isPrefixOf hs ||
      (match hs with
       | [] => false
       | _ :: t => sublistAt t ns)

/-- Python `needle in hay` for strings. -/
def strContainsSub (hay needle : String) : Bool :=
  sublistAt hay.data needle.data


/-! ## DSL evaluator (`src/modules/dsl_evaluator.py`) -/

/-- A condition dict, as consumed by `evaluate_condition`.  `null` stands for
Python `None` and for the empty dict (both falsy, treated identically by the
evaluator); `node` is a non-empty dict with the keys the evaluator reads,
defaults baked in: absent `operator`/`field` are `""`, absent/`None`
`conditions`/`values` are `[]`, an absent/falsy inner `condition` is `null`,
an absent `value` is `vnull` (Python `dict.get` yields `None` either way). -/
inductive Cond where
  | null
  | node (op : String) (conds : List Cond) (inner : Cond) (fieldPath : String)
         (value : Value) (values : List Value)

/-- `condition` is falsy (`if not condition`). -/
def isNullCond : Cond → Bool
  | .null => true
  | .node _ _ _ _ _ _ => false

/-- The two kinds of `DSLEvaluationError` raised by the evaluator. -/
inductive DSLErr where
  | opNotAllowed (op : String)
  | tooDeep
deriving DecidableEq, Repr

/-- `str(e)` for the two `DSLEvaluationError` messages in the source. -/
def dslErrMsg : DSLErr → String
  | .opNotAllowed op => "Operator not allowed: " ++ op
  | .tooDeep => "Condition nesting too deep (max 5)"

/-- `ALLOWED_OPERATORS` from the source (a frozenset; only membership is
used, so a list is an adequate model). -/
def ALLOWED_OPERATORS : List String :=
  ["and", "or", "not",
   "equals", "not_equals", "gt", "gte", "lt", "lte",
   "in", "not_in",
   "exists", "not_exists", "is_empty", "not_empty",
   "contains", "not_contains"]

/-- `MAX_NESTING_DEPTH` from the source. -/
def MAX_NESTING_DEPTH : Nat := 5

/-- Loop body of `get_nested_value`: walk the remaining path keys; dict
steps use `.get`, list steps parse the key as an index (a parse failure or a
`None` value at any step yields `None`). -/
def pathWalk : Value → List String → Option Value
  | v, [] => some v
  | v, k :: ks =>
      let nxt : Option Value :=
        match v with
        | .vdict m => assocGet m k
        | .vlist xs =>
            match pyIntOfString k with
            | some i => if 0 ≤ i ∧ i < (xs.length : Int) then xs.get? i.toNat else some .vnull
            | none => none
        | _ => none
      match nxt with
      | none => none
      | some .vnull => none
      | some v' => pathWalk v' ks

/-- `get_nested_value(data, path)`. -/
def getNested (data : Data) (path : String) : Option Value :=
  if path = "" ∨ data.isEmpty then none
  else pathWalk (.vdict data) (splitStrCh '.' path)

/-- The boolean normalization applied to both the looked-up field value and
the literal before comparison: strings that lower-case to `true`/`si`/`yes`
become `True`, `false`/`no` become `False`. -/
def normalizeBoolish (v : Value) : Value :=
  match v with
  | .vstr s =>
      let l := lowerStr s
      if l = "true" ∨ l = "si" ∨ l = "yes" then .vbool true
      else if l = "false" ∨ l = "no" then .vbool false
      else v
  | _ => v

/-- `value is None`. -/
def isNullV : Value → Bool
  | .vnull => true
  | _ => false

/-- The comparison-operator tail of `evaluate_condition` (everything after
the logical operators): total, never raises. -/
def evalComparison (op fieldPath : String) (value0 : Value) (values : List Value)
    (data : Data) : Bool :=
  let fv0 : Value := if fieldPath = "" then .vnull else (getNested data fieldPath).getD .vnull
  let value := normalizeBoolish value0
  let fv := normalizeBoolish fv0
  if op = "equals" then pyEq fv value
  else if op = "not_equals" then !(pyEq fv value)
  else if op = "gt" then
    if isNullV fv then false
    else match pyFloat? fv, pyFloat? value with
      | some x, some y => PyFloat.ltb y x
      | _, _ => false
  else if op = "gte" then
    if isNullV fv then false
    else match pyFloat? fv, pyFloat? value with
      | some x, some y => PyFloat.leb y x
      | _, _ => false
  else if op = "lt" then
    if isNullV fv then false
    else match pyFloat? fv, pyFloat? value with
      | some x, some y => PyFloat.ltb x y
      | _, _ => false
  else if op = "lte" then
    if isNullV fv then false
    else match pyFloat? fv, pyFloat? value with
      | some x, some y => PyFloat.leb x y
      | _, _ => false
  else if op = "in" then values.any (fun e => pyEq fv e)
  else if op = "not_in" then !(values.any (fun e => pyEq fv e))
  else if op = "exists" then !(isNullV fv)
  else if op = "not_exists" then isNullV fv
  else if op = "is_empty" then
    match fv with
    | .vnull => true
    | .vstr s => s == ""
    | .vlist xs => xs.isEmpty
    | .vdict es => es.isEmpty
    | _ => false
  else if op = "not_empty" then
    match fv with
    | .vnull => false
    | .vstr s => !(s == "")
    | .vlist xs => !xs.isEmpty
    | .vdict es => !es.isEmpty
    | _ => true
  else if op = "contains" then
    match fv with
    | .vnull => false
    | .vstr s => strContainsSub s (pyStr value)
    | .vlist xs => xs.any (fun e => pyEq value e)
    | _ => false
  else if op = "not_contains" then
    match fv with
    | .vnull => true
    | .vstr s => !(strContainsSub s (pyStr value))
    | .vlist xs => !(xs.any (fun e => pyEq value e))
    | _ => true
  else false

mutual
/-- `evaluate_condition(condition, data, depth)`.  `Except.error` models a
raised `DSLEvaluationError`; errors from recursive calls propagate (there is
no try/except around the recursion in the source). -/
def evalCond : Cond → Data → Nat → Except DSLErr Bool
  | .null, _, _ => .ok true
  | .node op conds inner fieldPath value values, data, depth =>
      if depth > MAX_NESTING_DEPTH then .error .tooDeep
      else if op = "" then .ok true
      else if op ∉ ALLOWED_OPERATORS then .error (.opNotAllowed op)
      else if op = "and" then
        if conds.isEmpty then .ok true
        else evalAll conds data (depth + 1)
      else if op = "or" then
        if conds.isEmpty then .ok false
        else evalAny conds data (depth + 1)
      else if op = "not" then
        if isNullCond inner then .ok true
        else
          match evalCond inner data (depth + 1) with
          | .error e => .error e
          | .ok b => .ok (!b)
      else .ok (evalComparison op fieldPath value values data)

/-- `all(evaluate_condition(c, data, depth + 1) for c in conditions)`:
short-circuits on the first `False`; errors propagate. -/
def evalAll : List Cond → Data → Nat → Except DSLErr Bool
  | [], _, _ => .ok true
  | c :: cs, data, depth =>
      match evalCond c data depth with
      | .error e => .error e
      | .ok b => if b then evalAll cs data depth else .ok false

/-- `any(...)`: short-circuits on the first `True`; errors propagate. -/
def evalAny : List Cond → Data → Nat → Except DSLErr Bool
  | [], _, _ => .ok false
  | c :: cs, data, depth =>
      match evalCond c data depth with
      | .error e => .error e
      | .ok b => if b then .ok true else evalAny cs data depth
end

/-! ## C2: characterization of the errors raised by `evaluate_condition` -/

/-- The exact situations in which `evaluate_condition` raises, following its
recursive descent: a non-empty condition at depth beyond the maximum, a
present operator outside the allow-list, or an error arising in an operand
that the short-circuiting `and`/`or`/`not` evaluation actually reaches. -/
inductive RaisesAt : Cond → Data → Nat → Prop where
  | tooDeep {op conds inner fp v vs data depth} :
      depth > MAX_NESTING_DEPTH →
      RaisesAt (.node op conds inner fp v vs) data depth
  | badOp {op conds inner fp v vs data depth} :
      depth ≤ MAX_NESTING_DEPTH → op ≠ "" → op ∉ ALLOWED_OPERATORS →
      RaisesAt (.node op conds inner fp v vs) data depth
  | andErr {conds inner fp v vs data depth} {pre : List Cond} {c : Cond} {post : List Cond} :
      depth ≤ MAX_NESTING_DEPTH →
      conds = pre ++ c :: post →
      (∀ c' ∈ pre, evalCond c' data (depth + 1) = .ok true) →
      RaisesAt c data (depth + 1) →
      RaisesAt (.node "and" conds inner fp v vs) data depth
  | orErr {conds inner fp v vs data depth} {pre : List Cond} {c : Cond} {post : List Cond} :
      depth ≤ MAX_NESTING_DEPTH →
      conds = pre ++ c :: post →
      (∀ c' ∈ pre, evalCond c' data (depth + 1) = .ok false) →
      RaisesAt c data (depth + 1) →
      RaisesAt (.node "or" conds inner fp v vs) data depth
  | notErr {conds inner fp v vs data depth} :
      depth ≤ MAX_NESTING_DEPTH → isNullCond inner = false →
      RaisesAt inner data (depth + 1) →
      RaisesAt (.node "not" conds inner fp v vs) data depth

/-- Equation lemma for `evalCond` at a non-empty condition dict. -/
theorem evalCond_node_def (op : String) (conds : List Cond) (inner : Cond)
    (fp : String) (v : Value) (vs : List Value) (data : Data) (depth : Nat) :
    evalCond (.node op conds inner fp v vs) data depth =
      if depth > MAX_NESTING_DEPTH then .error .tooDeep
      else if op = "" then .ok true
      else if op ∉ ALLOWED_OPERATORS then .error (.opNotAllowed op)
      else if op = "and" then
        if conds.isEmpty then .ok true else evalAll conds data (depth + 1)
      else if op = "or" then
        if conds.isEmpty then .ok false else evalAny conds data (depth + 1)
      else if op = "not" then
        if isNullCond inner then .ok true
        else
          match evalCond inner data (depth + 1) with
          | .error e => .error e
          | .ok b => .ok (!b)
      else .ok (evalComparison op fp v vs data) := rfl

/-- An `all(...)` generator errors iff some operand it reaches (all earlier
operands evaluating `True`) errors. -/
theorem evalAll_error_iff (data : Data) (k : Nat) (cs : List Cond)
    (ih : ∀ c ∈ cs, (∃ e, evalCond c data k = .error e) ↔ RaisesAt c data k) :
    (∃ e, evalAll cs data k = .error e) ↔
      ∃ pre c post, cs = pre ++ c :: post ∧
        (∀ c' ∈ pre, evalCond c' data k = .ok true) ∧ RaisesAt c data k := by
  induction cs with
  | nil =>
      simp only [evalAll]
      constructor
      · rintro ⟨e, he⟩; cases he
      · rintro ⟨pre, c, post, hcs, -, -⟩
        exact absurd hcs (by simp)
  | cons c0 cs ihl =>
      have ih0 := ih c0 (by simp)
      have ihrest := ihl (fun c hc => ih c (by simp [hc]))
      constructor
      · rintro ⟨e, he⟩
        simp only [evalAll] at he
        cases h0 : evalCond c0 data k with
        | error e0 =>
            exact ⟨[], c0, cs, rfl, by simp, ih0.mp ⟨e0, h0⟩⟩
        | ok b =>
            rw [h0] at he
            cases b with
            | false => simp at he
            | true =>
                simp only [if_pos] at he
                obtain ⟨pre, c, post, hcs, hpre, hr⟩ := ihrest.mp ⟨e, he⟩
                refine ⟨c0 :: pre, c, post, by simp [hcs], ?_, hr⟩
                intro c' hc'
                rcases List.mem_cons.mp hc' with h | h
                · exact h ▸ h0
                · exact hpre c' h
      · rintro ⟨pre, c, post, hcs, hpre, hr⟩
        cases pre with
        | nil =>
            injection hcs with h1 h2
            subst h1
            obtain ⟨e, he⟩ := ih0.mpr hr
            exact ⟨e, by simp only [evalAll, he]⟩
        | cons p ps =>
            injection hcs with h1 h2
            subst h1
            have h0 : evalCond c0 data k = .ok true := hpre c0 (by simp)
            obtain ⟨e, he⟩ :=
              ihrest.mpr ⟨ps, c, post, h2, fun c' hc' => hpre c' (by simp [hc']), hr⟩
            refine ⟨e, ?_⟩
            simp only [evalAll, h0]
            simpa using he

/-- An `any(...)` generator errors iff some operand it reaches (all earlier
operands evaluating `False`) errors. -/
theorem evalAny_error_iff (data : Data) (k : Nat) (cs : List Cond)
    (ih : ∀ c ∈ cs, (∃ e, evalCond c data k = .error e) ↔ RaisesAt c data k) :
    (∃ e, evalAny cs data k = .error e) ↔
      ∃ pre c post, cs = pre ++ c :: post ∧
        (∀ c' ∈ pre, evalCond c' data k = .ok false) ∧ RaisesAt c data k := by
  induction cs with
  | nil =>
      simp only [evalAny]
      constructor
      · rintro ⟨e, he⟩; cases he
      · rintro ⟨pre, c, post, hcs, -, -⟩
        exact absurd hcs (by simp)
  | cons c0 cs ihl =>
      have ih0 := ih c0 (by simp)
      have ihrest := ihl (fun c hc => ih c (by simp [hc]))
      constructor
      · rintro ⟨e, he⟩
        simp only [evalAny] at he
        cases h0 : evalCond c0 data k with
        | error e0 =>
            exact ⟨[], c0, cs, rfl, by simp, ih0.mp ⟨e0, h0⟩⟩
        | ok b =>
            rw [h0] at he
            cases b with
            | true => simp at he
            | false =>
                simp only [Bool.false_eq_true, if_neg] at he
                obtain ⟨pre, c, post, hcs, hpre, hr⟩ := ihrest.mp ⟨e, he⟩
                refine ⟨c0 :: pre, c, post, by simp [hcs], ?_, hr⟩
                intro c' hc'
                rcases List.mem_cons.mp hc' with h | h
                · exact h ▸ h0
                · exact hpre c' h
      · rintro ⟨pre, c, post, hcs, hpre, hr⟩
        cases pre with
        | nil =>
            injection hcs with h1 h2
            subst h1
            obtain ⟨e, he⟩ := ih0.mpr hr
            exact ⟨e, by simp only [evalAny, he]⟩
        | cons p ps =>
            injection hcs with h1 h2
            subst h1
            have h0 : evalCond c0 data k = .ok false := hpre c0 (by simp)
            obtain ⟨e, he⟩ :=
              ihrest.mpr ⟨ps, c, post, h2, fun c' hc' => hpre c' (by simp [hc']), hr⟩
            refine ⟨e, ?_⟩
            simp only [evalAny, h0]
            simpa using he

/-- `evalCond` at an `and` node. -/
theorem evalCond_and_def (conds : List Cond) (inner : Cond) (fp : String)
    (v : Value) (vs : List Value) (data : Data) (depth : Nat) :
    evalCond (.node "and" conds inner fp v vs) data depth =
      if depth > MAX_NESTING_DEPTH then .error .tooDeep
      else if conds.isEmpty then .ok true
      else evalAll conds data (depth + 1) := rfl

/-- `evalCond` at an `or` node. -/
theorem evalCond_or_def (conds : List Cond) (inner : Cond) (fp : String)
    (v : Value) (vs : List Value) (data : Data) (depth : Nat) :
    evalCond (.node "or" conds inner fp v vs) data depth =
      if depth > MAX_NESTING_DEPTH then .error .tooDeep
      else if conds.isEmpty then .ok false
      else evalAny conds data (depth + 1) := rfl

/-- `evalCond` at a `not` node. -/
theorem evalCond_not_def (conds : List Cond) (inner : Cond) (fp : String)
    (v : Value) (vs : List Value) (data : Data) (depth : Nat) :
    evalCond (.node "not" conds inner fp v vs) data depth =
      if depth > MAX_NESTING_DEPTH then .error .tooDeep
      else if isNullCond inner then .ok true
      else
        match evalCond inner data (depth + 1) with
        | .error e => .error e
        | .ok b => .ok (!b) := rfl

/-- Inversion principle for `RaisesAt` at a condition node. -/
theorem raisesAt_node_inv {op : String} {conds : List Cond} {inner : Cond}
    {fp : String} {v : Value} {vs : List Value} {data : Data} {depth : Nat}
    (h : RaisesAt (.node op conds inner fp v vs) data depth) :
    depth > MAX_NESTING_DEPTH ∨
    (depth ≤ MAX_NESTING_DEPTH ∧ op ≠ "" ∧ op ∉ ALLOWED_OPERATORS) ∨
    (depth ≤ MAX_NESTING_DEPTH ∧ op = "and" ∧
      ∃ pre c post, conds = pre ++ c :: post ∧
        (∀ c' ∈ pre, evalCond c' data (depth + 1) = .ok true) ∧
        RaisesAt c data (depth + 1)) ∨
    (depth ≤ MAX_NESTING_DEPTH ∧ op = "or" ∧
      ∃ pre c post, conds = pre ++ c :: post ∧
        (∀ c' ∈ pre, evalCond c' data (depth + 1) = .ok false) ∧
        RaisesAt c data (depth + 1)) ∨
    (depth ≤ MAX_NESTING_DEPTH ∧ op = "not" ∧ isNullCond inner = false ∧
      RaisesAt inner data (depth + 1)) := by
  cases h with
  | tooDeep h => exact Or.inl h
  | badOp h1 h2 h3 => exact Or.inr (Or.inl ⟨h1, h2, h3⟩)
  | andErr h1 hcs hpre hr =>
      exact Or.inr (Or.inr (Or.inl ⟨h1, rfl, _, _, _, hcs, hpre, hr⟩))
  | orErr h1 hcs hpre hr =>
      exact Or.inr (Or.inr (Or.inr (Or.inl ⟨h1, rfl, _, _, _, hcs, hpre, hr⟩)))
  | notErr h1 h2 hr =>
      exact Or.inr (Or.inr (Or.inr (Or.inr ⟨h1, rfl, h2, hr⟩)))

/-- Size-bounded induction core for the C2 characterization. -/
theorem evalCond_error_iff_aux :
    ∀ (n : Nat) (c : Cond), sizeOf c ≤ n → ∀ (data : Data) (depth : Nat),
      ((∃ e, evalCond c data depth = .error e) ↔ RaisesAt c data depth) := by
  intro n
  induction n with
  | zero =>
      intro c hc
      cases c <;> simp at hc
  | succ n ihn =>
      intro c hc data depth
      cases c with
      | null =>
          constructor
          · rintro ⟨e, he⟩
            simp [evalCond] at he
          · intro h
            cases h
      | node op conds inner fp v vs =>
          have hsz : 1 + sizeOf op + sizeOf conds + sizeOf inner + sizeOf fp
              + sizeOf v + sizeOf vs ≤ n + 1 := by
            simpa using hc
          by_cases hd : depth > MAX_NESTING_DEPTH
          · rw [evalCond_node_def, if_pos hd]
            exact ⟨fun _ => RaisesAt.tooDeep hd, fun _ => ⟨.tooDeep, rfl⟩⟩
          · have hd' : depth ≤ MAX_NESTING_DEPTH := Nat.le_of_not_lt hd
            by_cases hop0 : op = ""
            · subst hop0
              rw [evalCond_node_def, if_neg hd, if_pos rfl]
              constructor
              · rintro ⟨e, he⟩
                cases he
              · intro h
                rcases raisesAt_node_inv h with h1 | ⟨-, h2, -⟩ | ⟨-, h2, -⟩ |
                  ⟨-, h2, -⟩ | ⟨-, h2, -⟩
                · exact absurd h1 hd
                · exact absurd rfl h2
                · exact absurd h2 (by decide)
                · exact absurd h2 (by decide)
                · exact absurd h2 (by decide)
            · by_cases hopA : op ∈ ALLOWED_OPERATORS
              · have ihMem : ∀ c' ∈ conds,
                    (∃ e, evalCond c' data (depth + 1) = .error e) ↔
                      RaisesAt c' data (depth + 1) := by
                  intro c' hm
                  refine ihn c' ?_ data (depth + 1)
                  have h1 : sizeOf c' < sizeOf conds := List.sizeOf_lt_of_mem hm
                  omega
                by_cases hAnd : op = "and"
                · subst hAnd
                  rw [evalCond_and_def, if_neg hd]
                  by_cases hconds : conds.isEmpty
                  · rw [if_pos hconds]
                    constructor
                    · rintro ⟨e, he⟩
                      cases he
                    · intro h
                      rcases raisesAt_node_inv h with h1 | ⟨-, -, h3⟩ |
                        ⟨-, -, pre, cc, post, hcs, -, -⟩ | ⟨-, h2, -⟩ | ⟨-, h2, -⟩
                      · exact absurd h1 hd
                      · exact absurd hopA h3
                      · rw [List.isEmpty_iff.mp hconds] at hcs
                        exact absurd hcs (by simp)
                      · exact absurd h2 (by decide)
                      · exact absurd h2 (by decide)
                  · rw [if_neg hconds, evalAll_error_iff data (depth + 1) conds ihMem]
                    constructor
                    · rintro ⟨pre, cc, post, hcs, hpre, hr⟩
                      exact RaisesAt.andErr hd' hcs hpre hr
                    · intro h
                      rcases raisesAt_node_inv h with h1 | ⟨-, -, h3⟩ |
                        ⟨-, -, pre, cc, post, hcs, hpre, hr⟩ | ⟨-, h2, -⟩ | ⟨-, h2, -⟩
                      · exact absurd h1 hd
                      · exact absurd hopA h3
                      · exact ⟨pre, cc, post, hcs, hpre, hr⟩
                      · exact absurd h2 (by decide)
                      · exact absurd h2 (by decide)
                · by_cases hOr : op = "or"
                  · subst hOr
                    rw [evalCond_or_def, if_neg hd]
                    by_cases hconds : conds.isEmpty
                    · rw [if_pos hconds]
                      constructor
                      · rintro ⟨e, he⟩
                        cases he
                      · intro h
                        rcases raisesAt_node_inv h with h1 | ⟨-, -, h3⟩ | ⟨-, h2, -⟩ |
                          ⟨-, -, pre, cc, post, hcs, -, -⟩ | ⟨-, h2, -⟩
                        · exact absurd h1 hd
                        · exact absurd hopA h3
                        · exact absurd h2 (by decide)
                        · rw [List.isEmpty_iff.mp hconds] at hcs
                          exact absurd hcs (by simp)
                        · exact absurd h2 (by decide)
                    · rw [if_neg hconds, evalAny_error_iff data (depth + 1) conds ihMem]
                      constructor
                      · rintro ⟨pre, cc, post, hcs, hpre, hr⟩
                        exact RaisesAt.orErr hd' hcs hpre hr
                      · intro h
                        rcases raisesAt_node_inv h with h1 | ⟨-, -, h3⟩ | ⟨-, h2, -⟩ |
                          ⟨-, -, pre, cc, post, hcs, hpre, hr⟩ | ⟨-, h2, -⟩
                        · exact absurd h1 hd
                        · exact absurd hopA h3
                        · exact absurd h2 (by decide)
                        · exact ⟨pre, cc, post, hcs, hpre, hr⟩
                        · exact absurd h2 (by decide)
                  · by_cases hNot : op = "not"
                    · subst hNot
                      rw [evalCond_not_def, if_neg hd]
                      by_cases hinner : isNullCond inner
                      · rw [if_pos hinner]
                        constructor
                        · rintro ⟨e, he⟩
                          cases he
                        · intro h
                          rcases raisesAt_node_inv h with h1 | ⟨-, -, h3⟩ | ⟨-, h2, -⟩ |
                            ⟨-, h2, -⟩ | ⟨-, -, hni, -⟩
                          · exact absurd h1 hd
                          · exact absurd hopA h3
                          · exact absurd h2 (by decide)
                          · exact absurd h2 (by decide)
                          · rw [hinner] at hni
                            cases hni
                      · rw [if_neg hinner]
                        have ihInner := ihn inner (by omega) data (depth + 1)
                        constructor
                        · rintro ⟨e, he⟩
                          cases hin : evalCond inner data (depth + 1) with
                          | error e0 =>
                              exact RaisesAt.notErr hd' (Bool.eq_false_iff.mpr hinner)
                                (ihInner.mp ⟨e0, hin⟩)
                          | ok b =>
                              rw [hin] at he
                              cases he
                        · intro h
                          rcases raisesAt_node_inv h with h1 | ⟨-, -, h3⟩ | ⟨-, h2, -⟩ |
                            ⟨-, h2, -⟩ | ⟨-, -, -, hr⟩
                          · exact absurd h1 hd
                          · exact absurd hopA h3
                          · exact absurd h2 (by decide)
                          · exact absurd h2 (by decide)
                          · obtain ⟨e, he⟩ := ihInner.mpr hr
                            exact ⟨e, by rw [he]⟩
                    · rw [evalCond_node_def, if_neg hd, if_neg hop0,
                        if_neg (not_not_intro hopA), if_neg hAnd, if_neg hOr, if_neg hNot]
                      constructor
                      · rintro ⟨e, he⟩
                        cases he
                      · intro h
                        rcases raisesAt_node_inv h with h1 | ⟨-, -, h3⟩ | ⟨-, h2, -⟩ |
                          ⟨-, h2, -⟩ | ⟨-, h2, -⟩
                        · exact absurd h1 hd
                        · exact absurd hopA h3
                        · exact absurd h2 hAnd
                        · exact absurd h2 hOr
                        · exact absurd h2 hNot
              · rw [evalCond_node_def, if_neg hd, if_neg hop0, if_pos hopA]
                constructor
                · intro _
                  exact RaisesAt.badOp hd' hop0 hopA
                · intro _
                  exact ⟨.opNotAllowed op, rfl⟩

/-- **C2.** For every condition, data context and depth, `evaluate_condition`
raises a `DSLEvaluationError` exactly when the operator it dispatches on is
outside the allow-list or the recursive descent into `and`/`or`/`not`
operands exceeds the maximum nesting depth of 5 (`RaisesAt` lists precisely
those situations, including the propagation of such an error through the
short-circuiting logical operators); equivalently, DSL errors are always
surfaced and never converted into a boolean result. -/
theorem C2_dsl_errors_exactly_characterized (c : Cond) (data : Data) (depth : Nat) :
    (∃ e, evalCond c data depth = .error e) ↔ RaisesAt c data depth :=
  evalCond_error_iff_aux (sizeOf c) c (Nat.le_refl _) data depth

/-- Witness for C2: a disallowed operator raises, and a condition reached at
depth 6 raises; both via the characterization applied at concrete inputs. -/
theorem C2_witness :
    RaisesAt (Cond.node "bogus" [] .null "" .vnull []) [] 0 ∧
    (∃ e, evalCond (Cond.node "gt" [] .null "x" (.vint 1) []) [] 6 = .error e) :=
  ⟨(C2_dsl_errors_exactly_characterized (Cond.node "bogus" [] .null "" .vnull []) [] 0).mp
      ⟨.opNotAllowed "bogus", rfl⟩,
   (C2_dsl_errors_exactly_characterized (Cond.node "gt" [] .null "x" (.vint 1) []) [] 6).mpr
      (RaisesAt.tooDeep (by decide))⟩

/-- **C9.** For every data context: an empty or `None` condition (both
modelled by `Cond.null`, both falsy in the source's `if not condition`)
evaluates to `true`; an `and` condition with an empty operand list evaluates
to `true`; an `or` condition with an empty operand list evaluates to
`false` — whatever the remaining keys of the condition dict hold. -/
theorem C9_empty_condition_defaults (data : Data) (inner : Cond) (fp : String)
    (v : Value) (vs : List Value) :
    evalCond .null data 0 = .ok true ∧
    evalCond (.node "and" [] inner fp v vs) data 0 = .ok true ∧
    evalCond (.node "or" [] inner fp v vs) data 0 = .ok false :=
  ⟨rfl, rfl, rfl⟩

/-! ## Rule engine (`src/modules/rule_engine.py`) -/

/-- `RuleHit` dataclass. -/
structure RuleHit where
  rule_id : String
  rule_name : String
  condition_met : Bool
  action_type : String
  affected_elements : List String
  text_key : Option String
deriving DecidableEq, Repr

/-- `EvaluationTrace` dataclass. -/
structure EvaluationTrace where
  decision_id : String
  description : String
  rule_hits : List RuleHit
  outcome : String
deriving DecidableEq, Repr

/-- A rule dict as read by `_evaluate_rule`, with the source's `get`
defaults baked in: `rule_id` defaults to `"unknown"`, `name` to `""`,
`condition` to `{}` (`Cond.null`), `action.type` to `""`,
`action.elements` to `[]`, `action.text_key` to `None`. -/
structure Rule where
  rule_id : String
  name : String
  condition : Cond
  action_type : String
  elements : List String
  text_key : Option String

/-- A decision dict: `description` defaults to `""`, `rules` to `[]`,
`exclusive` to `False`; `default` is `None` when absent (a present empty
string behaves like `None` through the source's truthiness check). -/
structure Decision where
  description : String
  rules : List String
  exclusive : Bool
  default : Option String

/-- A visibility-map value: a boolean (`include`/`exclude`) or the
`text_key` stored by `set_text` (which may be Python `None`); the decision
default stores a plain string, modelled as `vt (some key)`. -/
inductive VisVal where
  | vb (b : Bool)
  | vt (t : Option String)
deriving DecidableEq, Repr

/-- The visibility map: a dict from element ids to `VisVal`. -/
abbrev VisMap := List (String × VisVal)

/-- The `RuleHit` built by `_evaluate_rule` for a given outcome. -/
def ruleHitOf (r : Rule) (met : Bool) : RuleHit :=
  ⟨r.rule_id, r.name, met, r.action_type, r.elements, r.text_key⟩

/-- `RuleEngine._evaluate_rule`: evaluate the condition (a raised
`DSLEvaluationError` propagates) and record the hit. -/
def evalRule (rule : Rule) (data : Data) : Except DSLErr RuleHit :=
  match evalCond rule.condition data 0 with
  | .error e => .error e
  | .ok met => .ok (ruleHitOf rule met)

/-- `RuleEngine._process_action`: write the action's effect into the
visibility map (unknown action types are ignored). -/
def processAction (hit : RuleHit) (vis : VisMap) : VisMap :=
  if hit.action_type = "include_block" then
    hit.affected_elements.foldl (fun m e => assocSet m e (.vb true)) vis
  else if hit.action_type = "exclude_block" then
    hit.affected_elements.foldl (fun m e => assocSet m e (.vb false)) vis
  else if hit.action_type = "set_text" then
    hit.affected_elements.foldl (fun m e => assocSet m e (.vt hit.text_key)) vis
  else if hit.action_type = "include_text" then
    hit.affected_elements.foldl (fun m e => assocSet m e (.vb true)) vis
  else vis

/-- The per-rule loop of `evaluate_all_rules` for one decision, carrying the
visibility map, the recorded hits and the `exclusive_hit` flag.  A rule id
missing from the rules dict (or mapped to a falsy rule) is skipped; once an
exclusive decision has a hit, remaining rules are skipped entirely —
neither evaluated nor recorded. -/
def decisionLoop (rules : List (String × Rule)) (data : Data) (isExcl : Bool) :
    List String → VisMap → List RuleHit → Bool →
    Except DSLErr (VisMap × List RuleHit × Bool)
  | [], vis, hits, ex => .ok (vis, hits, ex)
  | rid :: rest, vis, hits, ex =>
      match assocGet rules rid with
      | none => decisionLoop rules data isExcl rest vis hits ex
      | some rule =>
          if isExcl ∧ ex then decisionLoop rules data isExcl rest vis hits ex
          else
            match evalRule rule data with
            | .error e => .error e
            | .ok hit =>
                let ex' := if hit.condition_met ∧ isExcl then true else ex
                let vis' := if hit.condition_met then processAction hit vis else vis
                decisionLoop rules data isExcl rest vis' (hits ++ [hit]) ex'

/-- The per-decision body of `evaluate_all_rules`: run the rule loop, apply
the exclusive default if nothing matched, and emit the decision's trace. -/
def processDecision (rules : List (String × Rule)) (data : Data)
    (decisionId : String) (dec : Decision) (vis : VisMap) :
    Except DSLErr (VisMap × EvaluationTrace) :=
  match decisionLoop rules data dec.exclusive dec.rules vis [] false with
  | .error e => .error e
  | .ok (vis', hits, ex) =>
      let vis'' :=
        if dec.exclusive ∧ ¬ex then
          match dec.default with
          | some k => if k ≠ "" then assocSet vis' ("text_" ++ decisionId) (.vt (some k)) else vis'
          | none => vis'
        else vis'
      .ok (vis'', ⟨decisionId, dec.description, hits, if ex then "exclusive_hit" else "evaluated"⟩)

/-- Fold of `processDecision` over the decisions dict, in insertion order. -/
def evalAllRulesGo (rules : List (String × Rule)) (data : Data) :
    List (String × Decision) → VisMap → List EvaluationTrace →
    Except DSLErr (VisMap × List EvaluationTrace)
  | [], vis, traces => .ok (vis, traces)
  | (did, dec) :: rest, vis, traces =>
      match processDecision rules data did dec vis with
      | .error e => .error e
      | .ok (vis', tr) => evalAllRulesGo rules data rest vis' (traces ++ [tr])

/-- `RuleEngine.evaluate_all_rules(data)`, over the configured decisions
(`decision_map["decisions"]`) and rules (`logic["rules"]`). -/
def evaluateAllRules (decisions : List (String × Decision))
    (rules : List (String × Rule)) (data : Data) :
    Except DSLErr (VisMap × List EvaluationTrace) :=
  evalAllRulesGo rules data decisions [] []

/-- The hits recorded while scanning a list of rule ids none of which
matches (resolvable rules evaluated, unresolvable ones skipped). -/
def hitsCollected (rules : List (String × Rule)) (data : Data)
    (rids : List String) : List RuleHit :=
  rids.filterMap (fun rid =>
    match assocGet rules rid with
    | none => none
    | some r =>
        match evalRule r data with
        | .ok hit => some hit
        | .error _ => none)

/-- Once an exclusive decision has a hit, the remaining rule ids are skipped
without touching the map, the hits or the flag. -/
theorem decisionLoop_skips_after_exclusive_hit (rules : List (String × Rule))
    (data : Data) (rest : List String) :
    ∀ (vis : VisMap) (hits : List RuleHit),
      decisionLoop rules data true rest vis hits true = .ok (vis, hits, true) := by
  induction rest with
  | nil => intro vis hits; rfl
  | cons rid rest ih =>
      intro vis hits
      simp only [decisionLoop]
      cases assocGet rules rid with
      | none => exact ih vis hits
      | some rule =>
          simp only [true_and, if_pos]
          exact ih vis hits

/-- Scanning a prefix of rule ids in which no resolvable rule matches just
records their hits: the map and the flag are unchanged. -/
theorem decisionLoop_prefix_no_match (rules : List (String × Rule)) (data : Data)
    (isExcl : Bool) (pre : List String)
    (hpre : ∀ rid ∈ pre, assocGet rules rid = none ∨
        ∃ r, assocGet rules rid = some r ∧ evalCond r.condition data 0 = .ok false) :
    ∀ (rest : List String) (vis : VisMap) (hits : List RuleHit),
      decisionLoop rules data isExcl (pre ++ rest) vis hits false =
        decisionLoop rules data isExcl rest vis
          (hits ++ hitsCollected rules data pre) false := by
  induction pre with
  | nil => intro rest vis hits; simp [hitsCollected]
  | cons rid pre ih =>
      intro rest vis hits
      have hrid := hpre rid (by simp)
      have hrest : ∀ rid' ∈ pre, assocGet rules rid' = none ∨
          ∃ r, assocGet rules rid' = some r ∧ evalCond r.condition data 0 = .ok false :=
        fun rid' h => hpre rid' (by simp [h])
      rcases hrid with hnone | ⟨r, hsome, hfalse⟩
      · simp only [List.cons_append, decisionLoop, hnone, List.append_eq]
        rw [ih hrest rest vis hits]
        simp [hitsCollected, hnone]
      · have hev : evalRule r data = .ok (ruleHitOf r false) := by
          simp [evalRule, hfalse]
        have hstep : decisionLoop rules data isExcl ((rid :: pre) ++ rest) vis hits false =
            decisionLoop rules data isExcl (pre ++ rest) vis
              (hits ++ [ruleHitOf r false]) false := by
          simp [decisionLoop, hsome, hev, ruleHitOf]
        rw [hstep, ih hrest rest vis (hits ++ [ruleHitOf r false])]
        have hcoll : hitsCollected rules data (rid :: pre) =
            ruleHitOf r false :: hitsCollected rules data pre := by
          simp [hitsCollected, hsome, hev]
        rw [hcoll]
        simp

/-- **C1 (amended).** In an exclusive decision, when two of its rules (in
configured order) both have true conditions and no earlier rule matches,
only the first matching rule's action is applied to the visibility map (the
resulting map is exactly `processAction` of that rule's hit — the second
rule's action never takes effect), and the trace records the hits of the
rules up to and including the first match only: rules after the first match
are skipped and do **not** appear as `RuleHit` entries. -/
theorem C1_exclusive_first_match_only (rules : List (String × Rule)) (data : Data)
    (did : String) (dec : Decision) (vis0 : VisMap)
    (pre mid post : List String) (rid1 rid2 : String) (r1 r2 : Rule)
    (hex : dec.exclusive = true)
    (hrids : dec.rules = pre ++ rid1 :: (mid ++ rid2 :: post))
    (h1 : assocGet rules rid1 = some r1)
    (h2 : assocGet rules rid2 = some r2)
    (hc1 : evalCond r1.condition data 0 = .ok true)
    (hc2 : evalCond r2.condition data 0 = .ok true)
    (hpre : ∀ rid ∈ pre, assocGet rules rid = none ∨
        ∃ r, assocGet rules rid = some r ∧ evalCond r.condition data 0 = .ok false) :
    processDecision rules data did dec vis0 =
      .ok (processAction (ruleHitOf r1 true) vis0,
        ⟨did, dec.description,
          hitsCollected rules data pre ++ [ruleHitOf r1 true], "exclusive_hit"⟩) := by
  have hev1 : evalRule r1 data = .ok (ruleHitOf r1 true) := by
    simp [evalRule, hc1]
  have hloop : decisionLoop rules data dec.exclusive dec.rules vis0 [] false =
      .ok (processAction (ruleHitOf r1 true) vis0,
        hitsCollected rules data pre ++ [ruleHitOf r1 true], true) := by
    rw [hrids, hex]
    rw [decisionLoop_prefix_no_match rules data true pre hpre
      (rid1 :: (mid ++ rid2 :: post)) vis0 []]
    have hstep : decisionLoop rules data true (rid1 :: (mid ++ rid2 :: post)) vis0
        ([] ++ hitsCollected rules data pre) false =
        decisionLoop rules data true (mid ++ rid2 :: post)
          (processAction (ruleHitOf r1 true) vis0)
          (([] ++ hitsCollected rules data pre) ++ [ruleHitOf r1 true]) true := by
      simp [decisionLoop, h1, hev1, ruleHitOf]
    rw [hstep,
      decisionLoop_skips_after_exclusive_hit rules data (mid ++ rid2 :: post)]
    simp
  simp only [processDecision, hloop]
  rw [hex]
  simp

/-- The concrete exclusive decision used to settle C1: two rules with
always-true (empty) conditions; the first includes element `A`, the second
excludes it. -/
def c1Rules : List (String × Rule) :=
  [("r1", ⟨"r1", "", .null, "include_block", ["A"], none⟩),
   ("r2", ⟨"r2", "", .null, "exclude_block", ["A"], none⟩)]

/-- A single exclusive decision listing both rules in order. -/
def c1Decisions : List (String × Decision) :=
  [("d1", ⟨"", ["r1", "r2"], true, none⟩)]

/-- **C1 (counterexample to the claim as stated).**  Both rules' conditions
evaluate true, the decision is exclusive, only the first rule's action is
applied (`A` stays `True`; the second rule's `exclude_block` never takes
effect) — but the trace contains a `RuleHit` for the first rule only: the
second rule does **not** appear in the trace, contradicting the claim that
both rules still appear as `RuleHit` entries. -/
theorem C1_counterexample :
    evalCond Cond.null [] 0 = .ok true ∧
    evaluateAllRules c1Decisions c1Rules [] =
      .ok ([("A", VisVal.vb true)],
        [⟨"d1", "", [⟨"r1", "", true, "include_block", ["A"], none⟩],
          "exclusive_hit"⟩]) :=
  ⟨rfl, rfl⟩

/-- Witness for the amended C1 theorem at the concrete configuration. -/
theorem C1_witness :
    processDecision c1Rules [] "d1" ⟨"", ["r1", "r2"], true, none⟩ [] =
      .ok (processAction (ruleHitOf ⟨"r1", "", .null, "include_block", ["A"], none⟩ true) [],
        ⟨"d1", "",
          hitsCollected c1Rules [] [] ++
            [ruleHitOf ⟨"r1", "", .null, "include_block", ["A"], none⟩ true],
          "exclusive_hit"⟩) :=
  C1_exclusive_first_match_only c1Rules [] "d1" ⟨"", ["r1", "r2"], true, none⟩ []
    [] [] [] "r1" "r2"
    ⟨"r1", "", .null, "include_block", ["A"], none⟩
    ⟨"r2", "", .null, "exclude_block", ["A"], none⟩
    rfl rfl rfl rfl rfl rfl (by simp)

/-! ## Date formatting and parsing (`src/modules/context_builder.py`) -/

/-- `SPANISH_MONTHS` from the source. -/
def SPANISH_MONTHS : List String :=
  ["enero", "febrero", "marzo", "abril", "mayo", "junio",
   "julio", "agosto", "septiembre", "octubre", "noviembre", "diciembre"]

/-- The month names `%B` matches under the process's default (POSIX/C)
locale — the program never calls `setlocale`, so `strptime`'s `%B` uses the
English month names, compared case-insensitively, longest first (Python's
`TimeRE` sorts the alternation by length, stable). -/
def STRPTIME_B_MONTHS : List (String × Int) :=
  [("september", 9), ("february", 2), ("november", 11), ("december", 12),
   ("january", 1), ("october", 10), ("august", 8), ("march", 3),
   ("april", 4), ("june", 6), ("july", 7), ("may", 5)]

/-- Gregorian leap year (as `datetime.date` uses). -/
def isLeap (y : Int) : Bool := (y % 4 = 0 ∧ y % 100 ≠ 0) ∨ y % 400 = 0

/-- Days in a month (as `datetime.date` validates). -/
def daysInMonth (y m : Int) : Int :=
  if m = 2 then (if isLeap y then 29 else 28)
  else if m = 4 ∨ m = 6 ∨ m = 9 ∨ m = 11 then 30
  else 31

/-- `datetime.date(y, m, d)` constructor validity. -/
def dateValid (y m d : Int) : Bool :=
  1 ≤ y ∧ y ≤ 9999 ∧ 1 ≤ m ∧ m ≤ 12 ∧ 1 ≤ d ∧ d ≤ daysInMonth y m

/-- Digit value of an ASCII digit character. -/
def digitVal (c : Char) : Int := (c.toNat : Int) - ('0'.toNat : Int)

/-- `strptime`'s `%d` regex `3[01]|[12]\d|0[1-9]|[1-9]`: candidate parses
in the regex engine's alternation order. -/
def matchD : List Char → List (Int × List Char)
  | c1 :: c2 :: rest =>
      (if c1 = '3' ∧ (c2 = '0' ∨ c2 = '1') then [(30 + digitVal c2, rest)] else []) ++
      (if (c1 = '1' ∨ c1 = '2') ∧ isAsciiDigit c2 then
        [(10 * digitVal c1 + digitVal c2, rest)] else []) ++
      (if c1 = '0' ∧ '1' ≤ c2 ∧ c2 ≤ '9' then [(digitVal c2, rest)] else []) ++
      (if '1' ≤ c1 ∧ c1 ≤ '9' then [(digitVal c1, c2 :: rest)] else [])
  | [c1] => if '1' ≤ c1 ∧ c1 ≤ '9' then [(digitVal c1, [])] else []
  | [] => []

/-- `strptime`'s `%m` regex `1[0-2]|0[1-9]|[1-9]`. -/
def matchM : List Char → List (Int × List Char)
  | c1 :: c2 :: rest =>
      (if c1 = '1' ∧ ('0' ≤ c2 ∧ c2 ≤ '2') then [(10 + digitVal c2, rest)] else []) ++
      (if c1 = '0' ∧ '1' ≤ c2 ∧ c2 ≤ '9' then [(digitVal c2, rest)] else []) ++
      (if '1' ≤ c1 ∧ c1 ≤ '9' then [(digitVal c1, c2 :: rest)] else [])
  | [c1] => if '1' ≤ c1 ∧ c1 ≤ '9' then [(digitVal c1, [])] else []
  | [] => []

/-- `strptime`'s `%Y` regex `\d\d\d\d`: exactly four digits. -/
def matchY : List Char → Option (Int × List Char)
  | c1 :: c2 :: c3 :: c4 :: rest =>
      if isAsciiDigit c1 ∧ isAsciiDigit c2 ∧ isAsciiDigit c3 ∧ isAsciiDigit c4 then
        some (digitVal c1 * 1000 + digitVal c2 * 100 + digitVal c3 * 10 + digitVal c4, rest)
      else none
  | _ => none

/-- `strptime`'s `%B` under the C locale: the (prefix-free) English month
names, case-insensitively; at most one matches. -/
def matchB (cs : List Char) : Option (Int × List Char) :=
  let low := cs.map Char.toLower
  (STRPTIME_B_MONTHS.find? (fun p => p.1.data.isPrefixOf low)).map
    (fun p => (p.2, cs.drop p.1.length))

/-- A literal-space in a `strptime` format is compiled to `\s+`; the
directives that follow it in the embedded formats never start with
whitespace, so consuming the maximal run is exact. -/
def wsPlus : List Char → Option (List Char)
  | c :: cs => if isPySpace c then some (cs.dropWhile isPySpace) else none
  | _ => none

/-- A case-insensitive literal character (the whole `strptime` pattern is
compiled with `IGNORECASE`). -/
def litCI (c : Char) : List Char → Option (List Char)
  | x :: rest => if x.toLower = c.toLower then some rest else none
  | [] => none

/-- First success over candidate parses (regex alternation order). -/
def firstSome {α β : Type} (xs : List α) (f : α → Option β) : Option β :=
  match xs with
  | [] => none
  | x :: rest =>
      match f x with
      | some b => some b
      | none => firstSome rest f

/-- `strptime(s, "%d<sep>%m<sep>%Y")` with full-string anchoring and date
validation. -/
def parseDMY (sep : Char) (cs : List Char) : Option (Int × Int × Int) :=
  firstSome (matchD cs) fun dr =>
    match litCI sep dr.2 with
    | none => none
    | some r1 =>
        firstSome (matchM r1) fun mr =>
          match litCI sep mr.2 with
          | none => none
          | some r2 =>
              match matchY r2 with
              | some (y, []) =>
                  if dateValid y mr.1 dr.1 then some (y, mr.1, dr.1) else none
              | _ => none

/-- `strptime(s, "%Y<sep>%m<sep>%d")`. -/
def parseYMD (sep : Char) (cs : List Char) : Option (Int × Int × Int) :=
  match matchY cs with
  | none => none
  | some (y, r0) =>
      match litCI sep r0 with
      | none => none
      | some r1 =>
          firstSome (matchM r1) fun mr =>
            match litCI sep mr.2 with
            | none => none
            | some r2 =>
                firstSome (matchD r2) fun dr =>
                  match dr.2 with
                  | [] => if dateValid y mr.1 dr.1 then some (y, mr.1, dr.1) else none
                  | _ => none

/-- `strptime(s, "%m/%d/%Y")`. -/
def parseMDY (sep : Char) (cs : List Char) : Option (Int × Int × Int) :=
  firstSome (matchM cs) fun mr =>
    match litCI sep mr.2 with
    | none => none
    | some r1 =>
        firstSome (matchD r1) fun dr =>
          match litCI sep dr.2 with
          | none => none
          | some r2 =>
              match matchY r2 with
              | some (y, []) =>
                  if dateValid y mr.1 dr.1 then some (y, mr.1, dr.1) else none
              | _ => none

/-- `strptime(s, "%d de %B de %Y")`: the literal spaces become `\s+`, the
letters `d`/`e` match case-insensitively, `%B` matches the locale's
(English) month names. -/
def parseSpanishStrptime (cs : List Char) : Option (Int × Int × Int) :=
  firstSome (matchD cs) fun dr =>
    match wsPlus dr.2 with
    | none => none
    | some r1 =>
        match litCI 'd' r1 with
        | none => none
        | some r2 =>
            match litCI 'e' r2 with
            | none => none
            | some r3 =>
                match wsPlus r3 with
                | none => none
                | some r4 =>
                    match matchB r4 with
                    | none => none
                    | some (m, r5) =>
                        match wsPlus r5 with
                        | none => none
                        | some r6 =>
                            match litCI 'd' r6 with
                            | none => none
                            | some r7 =>
                                match litCI 'e' r7 with
                                | none => none
                                | some r8 =>
                                    match wsPlus r8 with
                                    | none => none
                                    | some r9 =>
                                        match matchY r9 with
                                        | some (y, []) =>
                                            if dateValid y m dr.1 then
                                              some (y, m, dr.1)
                                            else none
                                        | _ => none

/-- The `parse_date_string` format cascade, in source order; the first
successful parse wins, exhaustion yields `None`. -/
def parseDateStringStr (s : String) : Option (Int × Int × Int) :=
  let cs := s.data
  match parseDMY '/' cs with
  | some r => some r
  | none =>
  match parseYMD '-' cs with
  | some r => some r
  | none =>
  match parseDMY '-' cs with
  | some r => some r
  | none =>
  match parseSpanishStrptime cs with
  | some r => some r
  | none =>
  match parseYMD '/' cs with
  | some r => some r
  | none =>
  match parseDMY '.' cs with
  | some r => some r
  | none =>
  match parseYMD '.' cs with
  | some r => some r
  | none => parseMDY '/' cs

/-- `parse_date_string(x)`: falsy input and non-`str`/non-`date` input
yield `None`; a `date` passes through (a `datetime` would be reduced to its
date; none is constructed by the embedded modules). -/
def parse_date_string : Value → Option (Int × Int × Int)
  | .vnull => none
  | .vdate y m d => some (y, m, d)
  | .vstr s => if s = "" then none else parseDateStringStr s
  | _ => none

/-- `"{day} de {SPANISH_MONTHS[month - 1]} de {year}"` (the source indexes
with a valid month; out-of-range would raise, modelled by `getD ""`). -/
def formatDateTriple (y m d : Int) : String :=
  toString d ++ " de " ++ (SPANISH_MONTHS.getD (m - 1).toNat "") ++ " de " ++ toString y

/-- `format_spanish_date(d)`. -/
def format_spanish_date : Value → String
  | .vnull => ""
  | .vstr s =>
      (match parse_date_string (.vstr s) with
       | none => ""
       | some (y, m, d) => formatDateTriple y m d)
  | .vdate y m d => formatDateTriple y m d
  | v => pyStr v

/-- **C4 (the code fails the claimed round trip).** Formatting a date with
`format_spanish_date` produces the Spanish long form, but re-parsing it
with `parse_date_string` yields `None` — not the original date — because
the cascade's only long-form format, `"%d de %B de %Y"`, matches month
names of the process locale (English under the default C locale; the
program never calls `setlocale`), and no Spanish month name matches.
Checked here at 1900-01-01 and 2100-12-31 (the claimed range's endpoints)
and at 2024-05-01 (`mayo`, where `%B` even consumes the English prefix
`may` before failing). -/
theorem C4_round_trip_fails :
    format_spanish_date (.vdate 2024 5 1) = "1 de mayo de 2024" ∧
    parse_date_string (.vstr (format_spanish_date (.vdate 2024 5 1))) = none ∧
    parse_date_string (.vstr (format_spanish_date (.vdate 1900 1 1))) = none ∧
    parse_date_string (.vstr (format_spanish_date (.vdate 2100 12 31))) = none :=
  ⟨rfl, rfl, rfl, rfl⟩

/-! ## Context builder (`src/modules/context_builder.py`) -/

/-- Truncation of a float toward zero (Python `int(float)`). -/
def PyFloat.truncInt (q : PyFloat) : Int :=
  let n : Int := (q.num.natAbs / q.den : Nat)
  if q.num < 0 then -n else n

/-- Python `int(x)` over a dynamic value: `None` and containers raise. -/
def pyToInt? : Value → Option Int
  | .vbool b => some (if b then 1 else 0)
  | .vint n => some n
  | .vnum q => some q.truncInt
  | .vstr s => pyIntOfString s
  | _ => none

/-- Group the digits of a non-negative decimal string in threes (Python's
`f"{n:,}"`), separator supplied by the caller. -/
def groupThrees (sep : String) (digits : List Char) : String :=
  let rev := digits.reverse
  let rec chunks : List Char → List (List Char)
    | [] => []
    | a :: b :: c :: rest => [a, b, c] :: chunks rest
    | short => [short]
  String.intercalate sep ((chunks rev).reverse.map (fun g => ⟨g.reverse⟩))

/-- `f"{n:,}"` then `.replace(",", "X").replace(".", ",").replace("X", ".")`:
an integer grouped with `.` as the thousands separator. -/
def intGroupedDots (n : Int) : String :=
  (if n < 0 then "-" else "") ++ groupThrees "." (toString n.natAbs).data

/-- `format_currency_eur(value)`. -/
def format_currency_eur (v : Value) : String :=
  match v with
  | .vnull => ""
  | _ =>
      let numOpt : Option Int :=
        match v with
        | .vstr s => (pyFloatOfString (strReplace (strReplace s "," ".") " " "")).map
            PyFloat.truncInt
        | .vbool b => some (if b then 1 else 0)
        | .vint n => some n
        | .vnum q => some q.truncInt
        | _ => none
      match numOpt with
      | none => pyStr v
      | some n => intGroupedDots n ++ " EUR"

/-- `f"{x:.2f}"` on an exact fraction: two decimals, ties to even (Python
rounds the underlying binary float; exact decimal ties are modelled as
exact half-to-even). -/
def format2f (q : PyFloat) : String :=
  let sgnStr := if q.num < 0 then "-" else ""
  let scaled : Nat := q.num.natAbs * 100
  let den := q.den
  let q0 := scaled / den
  let r := scaled % den
  let rounded : Nat :=
    if 2 * r < den then q0
    else if 2 * r > den then q0 + 1
    else if q0 % 2 = 0 then q0 else q0 + 1
  sgnStr ++ toString (rounded / 100) ++ "." ++ pad2 (rounded % 100)

/-- `format_percentage(value)`.  A bool raises in `__format__` and falls to
`str(value)`; a non-numeric non-string raises in the format call too. -/
def format_percentage (v : Value) : String :=
  match v with
  | .vnull => ""
  | .vint n => strReplace (format2f (.ofInt n) ++ " %") "." ","
  | .vnum q => strReplace (format2f q ++ " %") "." ","
  | .vstr s =>
      match pyFloatOfString (strReplace s "," ".") with
      | some q => strReplace (format2f q ++ " %") "." ","
      | none => pyStr v
  | _ => pyStr v

/-- The first four-digit run found by `re.search(r'\d{4}', s)`. -/
def findFourDigits : List Char → Option Int
  | c1 :: c2 :: c3 :: c4 :: rest =>
      if isAsciiDigit c1 ∧ isAsciiDigit c2 ∧ isAsciiDigit c3 ∧ isAsciiDigit c4 then
        some (digitVal c1 * 1000 + digitVal c2 * 100 + digitVal c3 * 10 + digitVal c4)
      else findFourDigits (c2 :: c3 :: c4 :: rest)
  | _ => none

/-- `ContextBuilder._extract_year`. -/
def extractYear : Value → Option Int
  | .vdate y _ _ => some y
  | .vstr s =>
      (match parse_date_string (.vstr s) with
       | some (y, _, _) => some y
       | none => findFourDigits s.data)
  | _ => none

/-- The 34-space indent used by `_format_directors_list`. -/
def directorsIndent : String := String.mk (List.replicate 34 ' ')

/-- `ContextBuilder._format_directors_list`. -/
def formatDirectorsList (v : Value) : String :=
  if pyTruthy v = false then ""
  else
    match v with
    | .vstr s => s
    | .vlist ds =>
        let lines := ds.filterMap (fun d =>
          match d with
          | .vdict m =>
              let nombre := (assocGet m "nombre").getD (.vstr "")
              let cargo := (assocGet m "cargo").getD (.vstr "")
              if pyTruthy nombre ∧ pyTruthy cargo then
                some (directorsIndent ++ " D. " ++ pyStr nombre ++ " - " ++ pyStr cargo)
              else none
          | .vstr s => some s
          | _ => none)
        String.intercalate "\n" lines
    | _ => pyStr v

/-- `ContextBuilder._bool_to_sino`. -/
def boolToSino : Value → String
  | .vbool b => if b then "si" else "no"
  | .vstr s =>
      if lowerStr s = "true" ∨ lowerStr s = "si" ∨ lowerStr s = "yes" ∨ lowerStr s = "1"
      then "si" else "no"
  | _ => "no"

/-- The formula-function registry keys, in source order. -/
def FORMULA_FUNCS : List String :=
  ["extract_year", "format_directors_list", "bool_to_sino", "sum"]

/-- Dispatch of a registry function on its single argument (`sum` is the
documented placeholder returning 0). -/
def applyFormulaFunc (name : String) (v : Value) : Value :=
  if name = "extract_year" then
    match extractYear v with
    | some y => .vint y
    | none => .vnull
  else if name = "format_directors_list" then .vstr (formatDirectorsList v)
  else if name = "bool_to_sino" then .vstr (boolToSino v)
  else .vint 0

/-- Python `\w` (ASCII view; the configured formulas are ASCII). -/
def isWordChar (c : Char) : Bool :=
  c.isAlpha || isAsciiDigit c || c = '_'

/-- `re.match(r'(\w+)\(([^)]+)\)', formula)`: a word prefix, `(`, one or
more non-`)` characters, `)` (anything after the `)` is ignored). -/
def funcMatch (f : String) : Option (String × String) :=
  let cs := f.data
  let name := cs.takeWhile isWordChar
  if name.isEmpty then none
  else
    match cs.drop name.length with
    | '(' :: rest =>
        let args := rest.takeWhile (fun c => c ≠ ')')
        if args.isEmpty then none
        else
          match rest.drop args.length with
          | ')' :: _ => some (⟨name⟩, ⟨args⟩)
          | _ => none
    | _ => none

/-- `_get_value(key, context)`: context lookup, else int literal, else
float literal, else the key itself. -/
def getValueM (key : String) (ctx : Data) : Value :=
  match assocGet ctx key with
  | some v => v
  | none =>
      match pyIntOfString key with
      | some n => .vint n
      | none =>
          match pyFloatOfString key with
          | some q => .vnum q
          | none => .vstr key

/-- `int(left) <op> int(right)` with coercion failures yielding `None`. -/
def intBinResult (f : Int → Int → Int) (l r : List Char) (ctx : Data) : Value :=
  match pyToInt? (getValueM (pyStrip ⟨l⟩) ctx), pyToInt? (getValueM (pyStrip ⟨r⟩) ctx) with
  | some a, some b => .vint (f a b)
  | _, _ => .vnull

/-- A context value is substituted into a `*`/`/` expression iff it is
numeric (`isinstance(val, (int, float, Decimal))`; Python bools are ints). -/
def isNumericVal : Value → Bool
  | .vint _ => true
  | .vnum _ => true
  | .vbool _ => true
  | _ => false

/-- The substitution loop of the dynamic-arithmetic branch: for every
context item in insertion order, if the key occurs in the expression and the
value is numeric, replace every occurrence of the key by `str(val)`. -/
def substNums (ctx : Data) (formula : String) : String :=
  ctx.foldl
    (fun expr kv =>
      if strContainsSub expr kv.1 ∧ isNumericVal kv.2 then
        strReplace expr kv.1 (pyStr kv.2)
      else expr)
    formula

/-- The strict character-class pre-check
`re.match(r'^[\d\s\.\+\-\*\/\(\)]+$', expr)`: non-empty and every character
a digit, whitespace, dot, sign, star, slash or parenthesis (`$` tolerates
only a final newline, which the class covers anyway). -/
def arithPrecheckOk (s : String) : Bool :=
  ¬s.data.isEmpty ∧ s.data.all (fun c =>
    isAsciiDigit c || isPySpace c || c = '.' || c = '+' || c = '-' || c = '*' ||
    c = '/' || c = '(' || c = ')')

/-- The separator lists for the `" - "` / `" + "` splits. -/
def sepMinus : List Char := [' ', '-', ' ']

/-- See `sepMinus`. -/
def sepPlus : List Char := [' ', '+', ' ']

/-- The arithmetic tail of `_evaluate_formula` (everything after the
function-call branch), parameterized by the dynamic evaluator `pyEval`
standing for Python's `eval` (`none` = the evaluation raised, caught by the
surrounding `try` and turned into `None`). -/
def evalFormulaArith (pyEval : String → Option Value) (formula : String)
    (ctx : Data) : Except Unit Value :=
  match (if strContainsSub formula " - " then split2 sepMinus formula.data else none) with
  | some (l, r) => .ok (intBinResult (fun a b => a - b) l r ctx)
  | none =>
  match (if strContainsSub formula " + " then split2 sepPlus formula.data else none) with
  | some (l, r) => .ok (intBinResult (fun a b => a + b) l r ctx)
  | none =>
  if strContainsSub formula " * " || strContainsSub formula " / " then
    let expr := substNums ctx formula
    if arithPrecheckOk expr then
      match pyEval expr with
      | some v => .ok v
      | none => .ok .vnull
    else .ok .vnull
  else .ok .vnull

/-- `ContextBuilder._evaluate_formula(formula, context)`: the function-call
branch first (a registry hit returns its result; the wrong argument count
raises a `TypeError`, modelled by `.error`), otherwise the arithmetic
branches. -/
def evalFormulaWith (pyEval : String → Option Value) (formula : String)
    (ctx : Data) : Except Unit Value :=
  match funcMatch formula with
  | some (fname, argsStr) =>
      if fname ∈ FORMULA_FUNCS then
        let args := (splitStrCh ',' argsStr).map pyStrip
        let argVals := args.map (fun a =>
          match assocGet ctx a with
          | some v => v
          | none => .vstr a)
        match argVals with
        | [v] => .ok (applyFormulaFunc fname v)
        | _ => .error ()
      else evalFormulaArith pyEval formula ctx
  | none => evalFormulaArith pyEval formula ctx

/-- Fraction addition. -/
def PyFloat.add (a b : PyFloat) : PyFloat := ⟨a.num * b.den + b.num * a.den, a.den * b.den⟩

/-- Fraction multiplication. -/
def PyFloat.mul (a b : PyFloat) : PyFloat := ⟨a.num * b.num, a.den * b.den⟩

/-- Fraction division; `none` models `ZeroDivisionError`. -/
def PyFloat.div (a b : PyFloat) : Option PyFloat :=
  if b.num = 0 then none
  else some ⟨a.num * b.den * (if b.num < 0 then -1 else 1), a.den * b.num.natAbs⟩

/-- Tokens of the guarded arithmetic expressions fed to `eval`. -/
inductive ATok where
  | num (q : PyFloat) (isInt : Bool)
  | plus
  | minus
  | star
  | slash
  | lpar
  | rpar
deriving DecidableEq, Repr

/-- Tokenizer for the character class admitted by the pre-check (fuelled
for structural recursion; the fuel is the input length). -/
def lexArithF : Nat → List Char → Option (List ATok)
  | _, [] => some []
  | 0, _ => none
  | fuel + 1, c :: cs =>
      if isPySpace c then lexArithF fuel cs
      else if c = '+' then (lexArithF fuel cs).map (.plus :: ·)
      else if c = '-' then (lexArithF fuel cs).map (.minus :: ·)
      else if c = '*' then (lexArithF fuel cs).map (.star :: ·)
      else if c = '/' then (lexArithF fuel cs).map (.slash :: ·)
      else if c = '(' then (lexArithF fuel cs).map (.lpar :: ·)
      else if c = ')' then (lexArithF fuel cs).map (.rpar :: ·)
      else if isAsciiDigit c || c = '.' then
        let tok := (c :: cs).takeWhile (fun x => isAsciiDigit x || x = '.')
        let rest := (c :: cs).drop tok.length
        if (tok.filter isAsciiDigit).isEmpty then none
        else
          match splitCh '.' tok with
          | [i] => (lexArithF fuel rest).map (.num ⟨digitsToNat i, 1⟩ true :: ·)
          | [i, f] =>
              (lexArithF fuel rest).map
                (.num ⟨(digitsToNat i : Int) * 10 ^ f.length + digitsToNat f,
                  10 ^ f.length⟩ false :: ·)
          | _ => none
      else none

/-- Numeric view of an evaluation intermediate. -/
def arithNum : Value → Option (PyFloat × Bool)
  | .vint n => some (⟨n, 1⟩, true)
  | .vnum q => some (q, false)
  | _ => none

/-- Python `+`/`*` on numbers: `int` when both operands are `int`. -/
def arithAddMul (isMul : Bool) (a b : Value) : Option Value :=
  match arithNum a, arithNum b with
  | some (x, xi), some (y, yi) =>
      let r := if isMul then x.mul y else x.add y
      some (if xi ∧ yi then .vint r.num else .vnum r)
  | _, _ => none

/-- Python `-` via `+` and negation. -/
def arithNeg : Value → Option Value
  | .vint n => some (.vint (-n))
  | .vnum q => some (.vnum ⟨-q.num, q.den⟩)
  | _ => none

/-- Python `/`: always a float; division by zero raises. -/
def arithDiv (a b : Value) : Option Value :=
  match arithNum a, arithNum b with
  | some (x, _), some (y, _) =>
      match x.div y with
      | some r => some (.vnum r)
      | none => none
  | _, _ => none

mutual
/-- `primary := number | ( expr ) | ± primary`. -/
def parsePrimary : Nat → List ATok → Option (Value × List ATok)
  | 0, _ => none
  | fuel + 1, toks =>
      match toks with
      | .num q isInt :: rest => some (if isInt then .vint q.num else .vnum q, rest)
      | .lpar :: rest =>
          match parseExprF fuel rest with
          | some (v, .rpar :: rest') => some (v, rest')
          | _ => none
      | .minus :: rest =>
          match parsePrimary fuel rest with
          | some (v, r) =>
              match arithNeg v with
              | some v' => some (v', r)
              | none => none
          | none => none
      | .plus :: rest => parsePrimary fuel rest
      | _ => none

/-- `term := primary (('*' | '/') primary)*`. -/
def parseTermF : Nat → List ATok → Option (Value × List ATok)
  | 0, _ => none
  | fuel + 1, toks =>
      match parsePrimary fuel toks with
      | some (v, rest) => termLoop fuel v rest
      | none => none

def termLoop : Nat → Value → List ATok → Option (Value × List ATok)
  | 0, _, _ => none
  | fuel + 1, v, toks =>
      match toks with
      | .star :: rest =>
          match parsePrimary fuel rest with
          | some (v2, r) =>
              match arithAddMul true v v2 with
              | some v' => termLoop fuel v' r
              | none => none
          | none => none
      | .slash :: rest =>
          match parsePrimary fuel rest with
          | some (v2, r) =>
              match arithDiv v v2 with
              | some v' => termLoop fuel v' r
              | none => none
          | none => none
      | _ => some (v, toks)

/-- `expr := term (('+' | '-') term)*`. -/
def parseExprF : Nat → List ATok → Option (Value × List ATok)
  | 0, _ => none
  | fuel + 1, toks =>
      match parseTermF fuel toks with
      | some (v, rest) => exprLoop fuel v rest
      | none => none

def exprLoop : Nat → Value → List ATok → Option (Value × List ATok)
  | 0, _, _ => none
  | fuel + 1, v, toks =>
      match toks with
      | .plus :: rest =>
          match parseTermF fuel rest with
          | some (v2, r) =>
              match arithAddMul false v v2 with
              | some v' => exprLoop fuel v' r
              | none => none
          | none => none
      | .minus :: rest =>
          match parseTermF fuel rest with
          | some (v2, r) =>
              match arithNeg v2 with
              | some nv2 =>
                  match arithAddMul false v nv2 with
                  | some v' => exprLoop fuel v' r
                  | none => none
              | none => none
          | none => none
      | _ => some (v, toks)
end

/-- The model of Python `eval` on the digits-and-operators expressions that
pass the pre-check: a standard precedence parser (`none` = the evaluation
raised: syntax error or division by zero; Python's `**` is not modelled —
no configured formula contains adjacent stars). -/
def pyEvalArith (s : String) : Option Value :=
  match lexArithF (s.data.length + 1) s.data with
  | none => none
  | some toks =>
      match parseExprF (2 * toks.length + 2) toks with
      | some (v, []) => some v
      | _ => none

/-- `_evaluate_formula` with the real dynamic evaluator. -/
def evaluateFormula (formula : String) (ctx : Data) : Except Unit Value :=
  evalFormulaWith pyEvalArith formula ctx

/-- A derived-field spec: `formula` defaults to `""`, `dependencies`
to `[]`. -/
structure DerivedSpec where
  formula : String
  dependencies : List String

/-- The plugin configuration slices `ContextBuilder` reads:
`derived["derived_fields"]`, `formatting["fields"]` (each field's
`fmt_spec.get("type")`), and `texts["text_blocks"]`. -/
structure Plugin where
  derived : List (String × DerivedSpec)
  fmtFields : List (String × Option String)
  textBlocks : List (String × Value)

/-- `_calculate_derived_fields`: compute a derived field only when all its
dependencies are present and non-`None`; an exception during evaluation
sets the field to `None`. -/
def calcDerivedFields (pyEval : String → Option Value)
    (derived : List (String × DerivedSpec)) (ctx0 : Data) : Data :=
  derived.foldl
    (fun ctx fs =>
      if fs.2.dependencies.all (fun d => !isNullV ((assocGet ctx d).getD .vnull)) then
        match evalFormulaWith pyEval fs.2.formula ctx with
        | .ok v => assocSet ctx fs.1 v
        | .error () => assocSet ctx fs.1 .vnull
      else ctx)
    ctx0

/-- `_apply_formatting`: date formats overwrite the field and add a
`_formatted` shadow; currency/percentage only add the shadow. -/
def applyFormatting (fmtFields : List (String × Option String)) (ctx0 : Data) : Data :=
  fmtFields.foldl
    (fun ctx ff =>
      match assocGet ctx ff.1 with
      | none => ctx
      | some .vnull => ctx
      | some value =>
          if ff.2 = some "date" then
            match value with
            | .vdate y m d =>
                let fd := Value.vstr (format_spanish_date (.vdate y m d))
                assocSet (assocSet ctx ff.1 fd) (ff.1 ++ "_formatted") fd
            | .vstr s =>
                if ¬strContainsSub s "de" then
                  let fd := Value.vstr (format_spanish_date (.vstr s))
                  assocSet (assocSet ctx ff.1 fd) (ff.1 ++ "_formatted") fd
                else assocSet ctx (ff.1 ++ "_formatted") value
            | _ => assocSet ctx (ff.1 ++ "_formatted") value
          else if ff.2 = some "currency" then
            assocSet ctx (ff.1 ++ "_formatted") (.vstr (format_currency_eur value))
          else if ff.2 = some "percentage" then
            assocSet ctx (ff.1 ++ "_formatted") (.vstr (format_percentage value))
          else ctx)
    ctx0

/-- `_sanitize_values`: replace `None` by `""` — at the top level of the
context dict only (the source iterates `context.items()` without
recursing). -/
def sanitizeValues (ctx : Data) : Data :=
  ctx.map (fun kv => (kv.1, if isNullV kv.2 then .vstr "" else kv.2))

/-- `_format_lists`: the directors list, if still a list, becomes its
formatted multi-line string. -/
def formatLists (ctx : Data) : Data :=
  match assocGet ctx "lista_alto_directores" with
  | some (.vlist ds) =>
      assocSet ctx "lista_alto_directores" (.vstr (formatDirectorsList (.vlist ds)))
  | _ => ctx

/-- `ContextBuilder.build_context(data)` with the dynamic evaluator as a
parameter: derived fields, formatting, text-block injection, sanitization,
list formatting — in that order. -/
def buildContextWith (pyEval : String → Option Value) (plugin : Plugin)
    (data : Data) : Data :=
  formatLists
    (sanitizeValues
      (assocSet
        (applyFormatting plugin.fmtFields
          (calcDerivedFields pyEval plugin.derived data))
        "texts" (.vdict plugin.textBlocks)))

/-- `ContextBuilder.build_context(data)` with the real `eval` model. -/
def buildContext (plugin : Plugin) (data : Data) : Data :=
  buildContextWith pyEvalArith plugin data

/-- The fixed `bool_fields` list of `get_conditional_values`. -/
def CONDITIONAL_BOOL_FIELDS : List String :=
  ["comision", "junta", "comite", "incorreccion", "limitacion_alcance",
   "dudas", "rent", "A_coste", "experto", "unidad_decision",
   "activo_impuesto", "operacion_fiscal", "compromiso", "gestion"]

/-- `ContextBuilder.get_conditional_values(data)`. -/
def getConditionalValues (data : Data) : List (String × String) :=
  CONDITIONAL_BOOL_FIELDS.map (fun f => (f, boolToSino ((assocGet data f).getD .vnull)))

mutual
/-- Whether a value contains Python `None` anywhere (at any nesting
level). -/
def hasNullValue : Value → Bool
  | .vnull => true
  | .vlist xs => hasNullList xs
  | .vdict es => hasNullEntries es
  | _ => false

def hasNullList : List Value → Bool
  | [] => false
  | v :: vs => hasNullValue v || hasNullList vs

def hasNullEntries : List (String × Value) → Bool
  | [] => false
  | (_, v) :: es => hasNullValue v || hasNullEntries es
end

/-- Whether a context contains `None` anywhere, nested values included. -/
def ctxHasNull (ctx : Data) : Bool := hasNullEntries ctx

/-- Unfolding lemma for dict lookup at a cons cell. -/
theorem assocGet_cons {α : Type} (pk : String) (pv : α) (l : List (String × α))
    (k : String) :
    assocGet ((pk, pv) :: l) k = if pk = k then some pv else assocGet l k := by
  by_cases h : pk = k <;> simp [assocGet, List.find?, h]

/-- Lookup after a dict store. -/
theorem assocGet_assocSet {α : Type} (l : List (String × α)) (k k' : String) (v : α) :
    assocGet (assocSet l k v) k' = if k' = k then some v else assocGet l k' := by
  induction l with
  | nil =>
      by_cases h : k' = k
      · subst h
        simp [assocSet, assocGet_cons]
      · simp [assocSet, assocGet_cons, h, Ne.symm h]
  | cons p l ih =>
      obtain ⟨pk, pv⟩ := p
      by_cases hpk : pk = k
      · subst hpk
        by_cases h : k' = pk
        · subst h
          simp [assocSet, assocGet_cons]
        · simp [assocSet, assocGet_cons, h, Ne.symm h]
      · simp only [assocSet, if_neg hpk]
        by_cases h : pk = k'
        · subst h
          rw [assocGet_cons, assocGet_cons]
          simp [hpk]
        · rw [assocGet_cons, assocGet_cons, if_neg h, if_neg h, ih]

/-- Lookup through a value-wise map of a dict. -/
theorem assocGet_map_val {α β : Type} (f : α → β) (l : List (String × α)) (k : String) :
    assocGet (l.map (fun kv => (kv.1, f kv.2))) k = (assocGet l k).map f := by
  induction l with
  | nil => rfl
  | cons p l ih =>
      obtain ⟨pk, pv⟩ := p
      by_cases h : pk = k
      · subst h
        simp [assocGet_cons]
      · simp [assocGet_cons, h, ih]

/-- The sanitization of one value is never `None`. -/
theorem isNullV_sanitized (w : Value) :
    isNullV (if isNullV w then Value.vstr "" else w) = false := by
  cases w <;> rfl

/-- Lookup in a sanitized context never yields `None`. -/
theorem assocGet_sanitize_ne_null (ctx : Data) (k : String) (v : Value)
    (h : assocGet (sanitizeValues ctx) k = some v) : isNullV v = false := by
  unfold sanitizeValues at h
  rw [assocGet_map_val (fun w => if isNullV w then Value.vstr "" else w) ctx k] at h
  cases hg : assocGet ctx k with
  | none => rw [hg] at h; cases h
  | some w =>
      rw [hg] at h
      simp only [Option.map] at h
      cases h
      exact isNullV_sanitized w

/-- **C5 (counterexample to the claim as stated).**  A `None` nested inside
a mapping survives `build_context`: the sanitization step only rewrites the
top level of the context, so the renderer can still see a nested null. -/
theorem C5_counterexample :
    ctxHasNull (buildContext ⟨[], [], []⟩ [("a", .vdict [("b", .vnull)])]) = true := rfl

/-- **C5 (amended).** For every dynamic evaluator, plugin configuration and
input data, every *top-level* value of the context built by
`build_context` is non-`None`: top-level nulls (input fields and failed
derived fields alike) are replaced by the empty string before the context
reaches the renderer.  (Nulls nested inside mappings or lists are not
touched — see the counterexample.) -/
theorem C5_top_level_never_null (pyEval : String → Option Value) (plugin : Plugin)
    (data : Data) (k : String) (v : Value)
    (h : assocGet (buildContextWith pyEval plugin data) k = some v) :
    isNullV v = false := by
  unfold buildContextWith at h
  set inner := assocSet
    (applyFormatting plugin.fmtFields (calcDerivedFields pyEval plugin.derived data))
    "texts" (.vdict plugin.textBlocks) with hinner
  unfold formatLists at h
  cases hl : assocGet (sanitizeValues inner) "lista_alto_directores" with
  | none =>
      rw [hl] at h
      exact assocGet_sanitize_ne_null inner k v h
  | some w =>
      rw [hl] at h
      cases w with
      | vlist ds =>
          rw [assocGet_assocSet] at h
          by_cases hk : k = "lista_alto_directores"
          · rw [if_pos hk] at h
            cases h
            rfl
          · rw [if_neg hk] at h
            exact assocGet_sanitize_ne_null inner k v h
      | vnull => exact assocGet_sanitize_ne_null inner k v h
      | vbool b => exact assocGet_sanitize_ne_null inner k v h
      | vint n => exact assocGet_sanitize_ne_null inner k v h
      | vnum q => exact assocGet_sanitize_ne_null inner k v h
      | vstr s => exact assocGet_sanitize_ne_null inner k v h
      | vdict es => exact assocGet_sanitize_ne_null inner k v h
      | vdate y m d => exact assocGet_sanitize_ne_null inner k v h

/-- Witness for the amended C5: a null input field comes out as `""`. -/
theorem C5_witness :
    isNullV (Value.vstr "") = false ∧
    assocGet (buildContextWith (fun _ => none) ⟨[], [], []⟩ [("a", .vnull)]) "a" =
      some (.vstr "") :=
  ⟨C5_top_level_never_null (fun _ => none) ⟨[], [], []⟩ [("a", .vnull)] "a"
    (.vstr "") rfl, rfl⟩

/-- The arithmetic tail never consults the dynamic evaluator when the
pre-check fails. -/
theorem evalFormulaArith_precheck_indep (formula : String) (ctx : Data)
    (hpre : arithPrecheckOk (substNums ctx formula) = false)
    (ev1 ev2 : String → Option Value) :
    evalFormulaArith ev1 formula ctx = evalFormulaArith ev2 formula ctx := by
  unfold evalFormulaArith
  cases hminus : (if strContainsSub formula " - " then split2 sepMinus formula.data
      else none) with
  | some p => rfl
  | none =>
      cases hplus : (if strContainsSub formula " + " then split2 sepPlus formula.data
          else none) with
      | some p => rfl
      | none =>
          by_cases hmul : (strContainsSub formula " * " || strContainsSub formula " / ") = true
          · simp only [hmul, if_pos]
            rw [hpre]
            rfl
          · simp only [Bool.not_eq_true] at hmul
            rw [hmul]
            rfl

/-- **C6.** The dynamic-arithmetic branch of `_evaluate_formula` is guarded
by the strict digits/operators pre-check on the substituted expression:
when the pre-check fails, (i) the formula's result does not depend on the
dynamic evaluator at all — `eval` is never invoked — and (ii) if control
reaches the multiplication/division branch (no registry function returns,
neither the `" - "` nor the `" + "` split applies, and the formula contains
`" * "` or `" / "`), the formula's result is `None`. -/
theorem C6_arith_precheck_is_mandatory_guard (formula : String) (ctx : Data)
    (hpre : arithPrecheckOk (substNums ctx formula) = false) :
    (∀ ev1 ev2, evalFormulaWith ev1 formula ctx = evalFormulaWith ev2 formula ctx) ∧
    ((∀ fa, funcMatch formula = some fa → fa.1 ∉ FORMULA_FUNCS) →
      split2 sepMinus formula.data = none →
      split2 sepPlus formula.data = none →
      (strContainsSub formula " * " || strContainsSub formula " / ") = true →
      ∀ ev, evalFormulaWith ev formula ctx = .ok .vnull) := by
  constructor
  · intro ev1 ev2
    unfold evalFormulaWith
    cases hfm : funcMatch formula with
    | none => exact evalFormulaArith_precheck_indep formula ctx hpre ev1 ev2
    | some fa =>
        obtain ⟨fname, argsStr⟩ := fa
        by_cases hreg : fname ∈ FORMULA_FUNCS
        · simp [hreg]
        · simp only [if_neg hreg]
          exact evalFormulaArith_precheck_indep formula ctx hpre ev1 ev2
  · intro hnofunc hminus hplus hmul ev
    have harith : evalFormulaArith ev formula ctx = .ok .vnull := by
      unfold evalFormulaArith
      have hm : (if strContainsSub formula " - " then split2 sepMinus formula.data
          else none) = none := by
        cases strContainsSub formula " - " <;> simp [hminus]
      have hp : (if strContainsSub formula " + " then split2 sepPlus formula.data
          else none) = none := by
        cases strContainsSub formula " + " <;> simp [hplus]
      rw [hm, hp]
      simp only [hmul, if_pos]
      rw [hpre]
      rfl
    unfold evalFormulaWith
    cases hfm : funcMatch formula with
    | none => exact harith
    | some fa =>
        obtain ⟨fname, argsStr⟩ := fa
        have := hnofunc (fname, argsStr) hfm
        simp only [if_neg this]
        exact harith

/-- Witness for C6: for the formula `a * b` in an empty context, the
substituted expression keeps its letters, the pre-check rejects it, the
result is `None`, and it does not change with the evaluator. -/
theorem C6_witness :
    evalFormulaWith (fun _ => some (.vint 99)) "a * b" [] = .ok .vnull ∧
    evalFormulaWith (fun _ => some (.vint 99)) "a * b" [] =
      evalFormulaWith (fun _ => none) "a * b" [] :=
  ⟨(C6_arith_precheck_is_mandatory_guard "a * b" [] rfl).2
      (fun fa h => by cases h) rfl rfl rfl (fun _ => some (.vint 99)),
   (C6_arith_precheck_is_mandatory_guard "a * b" [] rfl).1
      (fun _ => some (.vint 99)) (fun _ => none)⟩

/-- `boolToSino` only ever returns one of the two Spanish flags. -/
theorem boolToSino_si_or_no (v : Value) : boolToSino v = "si" ∨ boolToSino v = "no" := by
  cases v with
  | vbool b => cases b <;> simp [boolToSino]
  | vstr s =>
      by_cases h : lowerStr s = "true" ∨ lowerStr s = "si" ∨ lowerStr s = "yes" ∨
          lowerStr s = "1"
      · left
        simp [boolToSino, h]
      · right
        simp [boolToSino, h]
  | vnull => right; rfl
  | vint n => right; rfl
  | vnum q => right; rfl
  | vlist xs => right; rfl
  | vdict es => right; rfl
  | vdate y m d => right; rfl

/-- `boolToSino` yields `"si"` exactly on boolean `True` and the four
affirmative strings (case-insensitively). -/
theorem boolToSino_eq_si_iff (v : Value) :
    boolToSino v = "si" ↔
      (v = .vbool true ∨ ∃ s, v = .vstr s ∧
        (lowerStr s = "true" ∨ lowerStr s = "si" ∨ lowerStr s = "yes" ∨
          lowerStr s = "1")) := by
  cases v with
  | vbool b =>
      cases b <;> simp [boolToSino]
  | vstr s =>
      by_cases h : lowerStr s = "true" ∨ lowerStr s = "si" ∨ lowerStr s = "yes" ∨
          lowerStr s = "1"
      · simp [boolToSino, h]
      · simp [boolToSino, h]
  | vnull => simp [boolToSino]
  | vint n => simp [boolToSino]
  | vnum q => simp [boolToSino]
  | vlist xs => simp [boolToSino]
  | vdict es => simp [boolToSino]
  | vdate y m d => simp [boolToSino]

/-- Lookup in a list keyed by itself. -/
theorem assocGet_map_key {β : Type} (g : String → β) (l : List String) (f : String)
    (hf : f ∈ l) :
    assocGet (l.map (fun x => (x, g x))) f = some (g f) := by
  induction l with
  | nil => cases hf
  | cons x l ih =>
      rcases List.mem_cons.mp hf with h | h
      · subst h
        simp [assocGet_cons]
      · by_cases hx : x = f
        · subst hx
          simp [assocGet_cons]
        · simp [assocGet_cons, hx, ih h]

/-- **C10.** `get_conditional_values` returns a mapping defined on exactly
the fixed 14 conditional field names, in order; every value is `"si"` or
`"no"`; and a field maps to `"si"` precisely when its input value is
boolean `True` or one of the strings `true`/`si`/`yes`/`1`
(case-insensitively) — every other value, a missing or null field
included, maps to `"no"`. -/
theorem C10_conditional_values_total (data : Data) :
    ((getConditionalValues data).map Prod.fst = CONDITIONAL_BOOL_FIELDS) ∧
    (∀ p ∈ getConditionalValues data, p.2 = "si" ∨ p.2 = "no") ∧
    (∀ f ∈ CONDITIONAL_BOOL_FIELDS,
      (assocGet (getConditionalValues data) f = some "si" ↔
        ((assocGet data f).getD .vnull = .vbool true ∨
          ∃ s, (assocGet data f).getD .vnull = .vstr s ∧
            (lowerStr s = "true" ∨ lowerStr s = "si" ∨ lowerStr s = "yes" ∨
              lowerStr s = "1")))) := by
  refine ⟨?_, ?_, ?_⟩
  · simp only [getConditionalValues, List.map_map]
    exact List.map_id'' (fun _ => rfl) CONDITIONAL_BOOL_FIELDS
  · intro p hp
    unfold getConditionalValues at hp
    obtain ⟨f, -, hpf⟩ := List.mem_map.mp hp
    rw [← hpf]
    exact boolToSino_si_or_no _
  · intro f hf
    unfold getConditionalValues
    rw [assocGet_map_key (fun x => boolToSino ((assocGet data x).getD .vnull))
      CONDITIONAL_BOOL_FIELDS f hf]
    rw [Option.some_inj]
    exact boolToSino_eq_si_iff _

/-- Witness for C10 at a concrete input: an uppercase `"Yes"` maps to
`"si"`, and the missing 13 other fields all map to `"no"`. -/
theorem C10_witness :
    assocGet (getConditionalValues [("comision", .vstr "Yes")]) "comision" =
      some "si" ∧
    "junta" ∈ CONDITIONAL_BOOL_FIELDS ∧
    assocGet (getConditionalValues [("comision", .vstr "Yes")]) "junta" = some "no" :=
  ⟨((C10_conditional_values_total [("comision", .vstr "Yes")]).2.2 "comision"
      (by decide)).mpr (Or.inr ⟨"Yes", rfl, by right; right; left; rfl⟩),
   by decide, rfl⟩

/-! ## Contract validator (`src/modules/contract_validator.py`) -/

/-- `ValidationError` dataclass. -/
structure ValidationError where
  field : String
  message : String
  code : String
  value : Value

/-- `ValidationResult`: `add_error` appends and clears `is_valid`
(warnings are never produced by the embedded checks). -/
structure VResult where
  is_valid : Bool
  errors : List ValidationError

/-- Append a batch of errors (the result of consecutive `add_error` calls):
any non-empty batch clears `is_valid`. -/
def addErrs (res : VResult) (errs : List ValidationError) : VResult :=
  { is_valid := res.is_valid && errs.isEmpty, errors := res.errors ++ errs }

/-- An `item_schema` entry: `required` defaults to `False`; the label
defaults to the item field name. -/
structure ItemSpec where
  required : Bool
  label : Option String

/-- The non-empty `validation` dict: each key read with `.get`; number
bounds are arbitrary values coerced with `float`. -/
structure VRules where
  max_length : Option Int
  min_length : Option Int
  pattern : Option String
  vmin : Option Value
  vmax : Option Value

/-- A field spec as the validator reads it: `condition` defaults to the
falsy `Cond.null`, `required` to `False`, `type` to `"text"`, `label` to
the field name; `values` entries carry string `value`s (the error-message
`join` requires strings); `validation` is `none` when absent or empty
(both falsy). -/
structure FieldSpec where
  condition : Cond
  required : Bool
  ftype : String
  label : Option String
  enumValues : List String
  item_schema : List (String × ItemSpec)
  validation : Option VRules

/-- `_parse_spanish_date`: `re.match(r"(\d{1,2})\s+de\s+(\w+)\s+de\s+(\d{4})")`
on the lower-cased stripped value, month resolved through the
`SPANISH_MONTHS` map, then `date()` validation; trailing text is ignored
(the regex is not end-anchored). -/
def parseSpanishRegex (s : String) : Option (Int × Int × Int) :=
  let cs := (pyStrip (lowerStr s)).data
  let dRun := cs.takeWhile isAsciiDigit
  if dRun.length = 0 ∨ dRun.length > 2 then none
  else
    match wsPlus (cs.drop dRun.length) with
    | none => none
    | some r1 =>
        match r1 with
        | 'd' :: 'e' :: r2 =>
            match wsPlus r2 with
            | none => none
            | some r3 =>
                let mRun := r3.takeWhile isWordChar
                if mRun.length = 0 then none
                else
                  match wsPlus (r3.drop mRun.length) with
                  | none => none
                  | some r4 =>
                      match r4 with
                      | 'd' :: 'e' :: r5 =>
                          match wsPlus r5 with
                          | none => none
                          | some r6 =>
                              let yRun := r6.takeWhile isAsciiDigit
                              if yRun.length < 4 then none
                              else
                                let y : Int := digitsToNat (yRun.take 4)
                                let d : Int := digitsToNat dRun
                                match (SPANISH_MONTHS.enum.find?
                                    (fun p => p.2 = String.mk mRun)) with
                                | some (i, _) =>
                                    let m : Int := (i : Int) + 1
                                    if dateValid y m d then some (y, m, d) else none
                                | none => none
                      | _ => none
        | _ => none

/-- `_is_valid_date_string`: the Spanish regex first, then the validator's
five standard `strptime` formats. -/
def isValidDateString (s : String) : Bool :=
  (parseSpanishRegex s).isSome ||
  (parseDMY '/' s.data).isSome ||
  (parseYMD '-' s.data).isSome ||
  (parseDMY '-' s.data).isSome ||
  (parseYMD '/' s.data).isSome ||
  (parseDMY '.' s.data).isSome

/-- The dotted-and-bracketed error path of a list-item error. -/
def itemErrField (fname : String) (i : Nat) (ifld : String) : String :=
  fname ++ "[" ++ toString i ++ "]." ++ ifld

/-- The per-item required-subfield errors of a `list` field. -/
def listItemErrors (fname : String) (schema : List (String × ItemSpec))
    (items : List Value) : List ValidationError :=
  items.enum.flatMap (fun iv =>
    match iv.2 with
    | .vdict m =>
        schema.filterMap (fun fs =>
          if fs.2.required ∧ ¬pyTruthy ((assocGet m fs.1).getD .vnull) then
            some ⟨itemErrField fname iv.1 fs.1,
              "'" ++ fs.2.label.getD fs.1 ++ "' es requerido", "required", .vnull⟩
          else none)
    | _ => [])

/-- `ContractValidator._validate_type`. -/
def validateType (fname : String) (spec : FieldSpec) (value : Value) :
    List ValidationError :=
  let label := spec.label.getD fname
  if spec.ftype = "text" then
    match value with
    | .vstr _ => []
    | _ => [⟨fname, "'" ++ label ++ "' debe ser texto", "type_error", value⟩]
  else if spec.ftype = "int" then
    match value with
    | .vint _ => []
    | .vbool _ => []
    | _ =>
        if pyEq value (.vstr "") then []
        else
          match pyToInt? value with
          | some _ => []
          | none => [⟨fname, "'" ++ label ++ "' debe ser un numero entero",
              "type_error", value⟩]
  else if spec.ftype = "decimal" ∨ spec.ftype = "currency" then
    match value with
    | .vint _ => []
    | .vnum _ => []
    | .vbool _ => []
    | _ =>
        if pyEq value (.vstr "") then []
        else
          match pyFloatOfString (strReplace (pyStr value) "," ".") with
          | some _ => []
          | none => [⟨fname, "'" ++ label ++ "' debe ser un numero",
              "type_error", value⟩]
  else if spec.ftype = "bool" then
    match value with
    | .vbool _ => []
    | _ =>
        if [Value.vstr "si", .vstr "no", .vstr "yes", .vstr "no", .vbool true,
            .vbool false].any (fun w => pyEq value w) then []
        else [⟨fname, "'" ++ label ++ "' debe ser verdadero/falso", "type_error", value⟩]
  else if spec.ftype = "date" then
    match value with
    | .vdate _ _ _ => []
    | _ =>
        if pyEq value (.vstr "") then []
        else
          match value with
          | .vstr s =>
              if isValidDateString s then []
              else [⟨fname, "'" ++ label ++ "' debe ser una fecha valida",
                  "type_error", value⟩]
          | _ => []
  else if spec.ftype = "enum" then
    if pyTruthy value ∧ ¬spec.enumValues.any (fun w => pyEq value (.vstr w)) then
      [⟨fname, "'" ++ label ++ "' debe ser uno de: " ++
          String.intercalate ", " spec.enumValues, "enum_error", value⟩]
    else []
  else if spec.ftype = "list" then
    match value with
    | .vlist items => listItemErrors fname spec.item_schema items
    | _ => [⟨fname, "'" ++ label ++ "' debe ser una lista", "type_error", value⟩]
  else []

/-- `ContractValidator._validate_rules`, with Python's `re.match` supplied
as an oracle `reMatch pattern value` (the regex engine is an external
library). -/
def validateRules (reMatch : String → String → Bool) (fname : String)
    (spec : FieldSpec) (value : Value) (vr : VRules) : List ValidationError :=
  let label := spec.label.getD fname
  (match vr.max_length, value with
   | some n, .vstr s =>
       if n ≠ 0 ∧ (s.length : Int) > n then
         [⟨fname, "'" ++ label ++ "' no puede exceder " ++ toString n ++ " caracteres",
             "max_length", value⟩]
       else []
   | _, _ => []) ++
  (match vr.min_length, value with
   | some n, .vstr s =>
       if n ≠ 0 ∧ (s.length : Int) < n then
         [⟨fname, "'" ++ label ++ "' debe tener al menos " ++ toString n ++ " caracteres",
             "min_length", value⟩]
       else []
   | _, _ => []) ++
  (match vr.pattern, value with
   | some p, .vstr s =>
       if p ≠ "" ∧ ¬reMatch p s then
         [⟨fname, "'" ++ label ++ "' no tiene el formato correcto", "pattern", value⟩]
       else []
   | _, _ => []) ++
  (match vr.vmin with
   | some mv =>
       (match pyFloat? value, pyFloat? mv with
        | some x, some y =>
            if x.ltb y then
              [⟨fname, "'" ++ label ++ "' debe ser al menos " ++ pyStr mv,
                  "min_value", value⟩]
            else []
        | _, _ => [])
   | none => []) ++
  (match vr.vmax with
   | some mv =>
       (match pyFloat? value, pyFloat? mv with
        | some x, some y =>
            if y.ltb x then
              [⟨fname, "'" ++ label ++ "' no puede exceder " ++ pyStr mv,
                  "max_value", value⟩]
            else []
        | _, _ => [])
   | none => [])

/-- The field value is `None` or a blank string (the required check). -/
def isNullOrBlank : Value → Bool
  | .vnull => true
  | .vstr s => pyStrip s = ""
  | _ => false

/-- The type and custom-rule checks of one `validate` iteration (both run
only for non-`None` values; a custom-rule pass needs a truthy `validation`
dict). -/
def fieldChecks (reMatch : String → String → Bool) (data : Data) (res : VResult)
    (fname : String) (spec : FieldSpec) : VResult :=
  let value := (assocGet data fname).getD .vnull
  let res1 := if ¬isNullV value then addErrs res (validateType fname spec value) else res
  match spec.validation with
  | some vr =>
      if ¬isNullV value then addErrs res1 (validateRules reMatch fname spec value vr)
      else res1
  | none => res1

/-- The per-field body of `ContractValidator.validate` once the field is
known to be visible: required check first (stopping further checks), then
type validation and custom rules. -/
def fieldBody (reMatch : String → String → Bool) (checkRequired : Bool)
    (data : Data) (res : VResult) (fname : String) (spec : FieldSpec) : VResult :=
  if checkRequired ∧ spec.required ∧
      isNullOrBlank ((assocGet data fname).getD .vnull) then
    addErrs res [⟨fname, "El campo '" ++ spec.label.getD fname ++ "' es requerido",
        "required", .vnull⟩]
  else fieldChecks reMatch data res fname spec

/-- One iteration of the `validate` loop: a falsy condition skips the
gate, a false condition skips the field, a raising condition propagates. -/
def stepField (reMatch : String → String → Bool) (checkRequired : Bool)
    (data : Data) (res : VResult) (fname : String) (spec : FieldSpec) :
    Except DSLErr VResult :=
  if isNullCond spec.condition then .ok (fieldBody reMatch checkRequired data res fname spec)
  else
    match evalCond spec.condition data 0 with
    | .error e => .error e
    | .ok b =>
        if b then .ok (fieldBody reMatch checkRequired data res fname spec)
        else .ok res

/-- The `validate` loop over the field specs in declaration order. -/
def validateFieldsGo (reMatch : String → String → Bool) (checkRequired : Bool)
    (data : Data) : List (String × FieldSpec) → VResult → Except DSLErr VResult
  | [], res => .ok res
  | (f, s) :: rest, res =>
      match stepField reMatch checkRequired data res f s with
      | .error e => .error e
      | .ok res' => validateFieldsGo reMatch checkRequired data rest res'

/-- `ContractValidator.validate(data, check_required)`. -/
def validateModel (fields : List (String × FieldSpec)) (data : Data)
    (checkRequired : Bool) (reMatch : String → String → Bool) :
    Except DSLErr VResult :=
  validateFieldsGo reMatch checkRequired data fields ⟨true, []⟩

/-- String append acts as list append on the character data. -/
theorem strDataAppend (a b : String) : (a ++ b).data = a.data ++ b.data := rfl

/-- Item-error paths always contain a bracket. -/
theorem bracket_mem_itemErrField (g : String) (i : Nat) (fld : String) :
    '[' ∈ (itemErrField g i fld).data := by
  unfold itemErrField
  rw [strDataAppend, strDataAppend, strDataAppend, strDataAppend]
  simp

/-- Every list-item error's path contains a bracket. -/
theorem listItemErrors_bracket (g : String) (schema : List (String × ItemSpec))
    (items : List Value) :
    ∀ e ∈ listItemErrors g schema items, '[' ∈ e.field.data := by
  intro e he
  unfold listItemErrors at he
  obtain ⟨iv, -, hmem⟩ := List.mem_flatMap.mp he
  cases hv : iv.2 with
  | vdict m =>
      rw [hv] at hmem
      obtain ⟨fs, -, hsome⟩ := List.mem_filterMap.mp hmem
      by_cases hc : fs.2.required ∧ ¬pyTruthy ((assocGet m fs.1).getD .vnull)
      · rw [if_pos hc] at hsome
        cases hsome
        exact bracket_mem_itemErrField g iv.1 fs.1
      · rw [if_neg hc] at hsome
        cases hsome
  | vnull => rw [hv] at hmem; cases hmem
  | vbool b => rw [hv] at hmem; cases hmem
  | vint n => rw [hv] at hmem; cases hmem
  | vnum q => rw [hv] at hmem; cases hmem
  | vstr s => rw [hv] at hmem; cases hmem
  | vlist xs => rw [hv] at hmem; cases hmem
  | vdate y m d => rw [hv] at hmem; cases hmem

/-- Every type-check error is reported under the field's own name or an
item path containing a bracket. -/
theorem validateType_field_names (g : String) (s : FieldSpec) (v : Value) :
    ∀ e ∈ validateType g s v, e.field = g ∨ '[' ∈ e.field.data := by
  intro e he
  unfold validateType at he
  cases hti : pyToInt? v <;> cases hfl : pyFloatOfString (strReplace (pyStr v) "," ".") <;>
    simp only [hti, hfl] at he <;>
    repeat' split at he
  all_goals
    first
    | (exact Or.inr (listItemErrors_bracket g s.item_schema _ e he))
    | simp_all

/-- Every custom-rule error is reported under the field's own name. -/
theorem validateRules_field_names (rm : String → String → Bool) (g : String)
    (s : FieldSpec) (v : Value) (vr : VRules) :
    ∀ e ∈ validateRules rm g s v vr, e.field = g := by
  intro e he
  unfold validateRules at he
  repeat' rw [List.mem_append] at he
  rcases he with ((((he | he) | he) | he) | he) <;>
    · repeat' split at he
      all_goals simp_all

/-- The errors `fieldBody` appends for a field named `g` never use another
bracket-free name. -/
theorem fieldBody_other (rm : String → String → Bool) (data : Data)
    (res : VResult) (g : String) (s : FieldSpec) (f : String)
    (hne : g ≠ f) (hbr : '[' ∉ f.data) :
    ((fieldBody rm true data res g s).errors.filter (fun e => e.field = f) =
      res.errors.filter (fun e => e.field = f)) ∧
    (res.is_valid = false → (fieldBody rm true data res g s).is_valid = false) := by
  have hbatch2 : ∀ (r : VResult) (errs : List ValidationError),
      (∀ e ∈ errs, e.field = g ∨ '[' ∈ e.field.data) →
      ((addErrs r errs).errors.filter (fun e => e.field = f) =
        r.errors.filter (fun e => e.field = f)) ∧
      (r.is_valid = false → (addErrs r errs).is_valid = false) := by
    intro r errs hf
    constructor
    · show (r.errors ++ errs).filter (fun e => e.field = f) = _
      rw [List.filter_append]
      have : errs.filter (fun e => e.field = f) = [] := by
        rw [List.filter_eq_nil_iff]
        intro e hee
        rcases hf e hee with h | h
        · simp [h ▸ hne]
        · intro hc
          apply hbr
          rw [← (by simpa using hc : e.field = f)]
          exact h
      rw [this, List.append_nil]
    · intro h0
      show (r.is_valid && errs.isEmpty) = false
      rw [h0]
      rfl
  have hchecks :
      ((fieldChecks rm data res g s).errors.filter (fun e => e.field = f) =
        res.errors.filter (fun e => e.field = f)) ∧
      (res.is_valid = false → (fieldChecks rm data res g s).is_valid = false) := by
    simp only [fieldChecks]
    by_cases hnull : isNullV ((assocGet data g).getD .vnull) = true
    · rw [if_neg (not_not_intro hnull)]
      split
      · rw [if_neg (not_not_intro hnull)]
        exact ⟨rfl, id⟩
      · exact ⟨rfl, id⟩
    · have h1 := hbatch2 res (validateType g s ((assocGet data g).getD .vnull))
        (validateType_field_names g s _)
      rw [if_pos hnull]
      split
      · rename_i vr heq
        rw [if_pos hnull]
        have h2 := hbatch2 (addErrs res (validateType g s ((assocGet data g).getD .vnull)))
          (validateRules rm g s ((assocGet data g).getD .vnull) vr)
          (fun e hee => Or.inl (validateRules_field_names rm g s _ vr e hee))
        exact ⟨h2.1.trans h1.1, fun h0 => h2.2 (h1.2 h0)⟩
      · exact h1
  unfold fieldBody
  split
  · exact hbatch2 res [⟨g, "El campo '" ++ s.label.getD g ++ "' es requerido",
      "required", .vnull⟩] (by intro e hee; simp at hee; simp [hee])
  · exact hchecks

/-- One loop iteration for a differently-named field preserves the errors
filed under `f` and never resurrects validity. -/
theorem stepField_other (rm : String → String → Bool) (data : Data)
    (res res' : VResult) (g : String) (s : FieldSpec) (f : String)
    (hok : stepField rm true data res g s = .ok res')
    (hne : g ≠ f) (hbr : '[' ∉ f.data) :
    (res'.errors.filter (fun e => e.field = f) =
      res.errors.filter (fun e => e.field = f)) ∧
    (res.is_valid = false → res'.is_valid = false) := by
  unfold stepField at hok
  split at hok
  · cases hok
    exact fieldBody_other rm data res g s f hne hbr
  · split at hok
    · cases hok
    · split at hok
      · cases hok
        exact fieldBody_other rm data res g s f hne hbr
      · cases hok
        exact ⟨rfl, id⟩

/-- The loop over an appended field list runs the two parts in sequence. -/
theorem validateFieldsGo_append (rm : String → String → Bool) (cr : Bool)
    (data : Data) (a b : List (String × FieldSpec)) (res : VResult) :
    validateFieldsGo rm cr data (a ++ b) res =
      match validateFieldsGo rm cr data a res with
      | .error e => .error e
      | .ok r => validateFieldsGo rm cr data b r := by
  induction a generalizing res with
  | nil => rfl
  | cons p a ih =>
      obtain ⟨g, s⟩ := p
      simp only [List.cons_append, validateFieldsGo]
      cases stepField rm cr data res g s with
      | error e => rfl
      | ok r => exact ih r

/-- Scanning fields none of which is named `f` preserves the `f`-filed
errors and the invalidity flag. -/
theorem validateFieldsGo_other (rm : String → String → Bool) (data : Data)
    (flds : List (String × FieldSpec)) (f : String) (hbr : '[' ∉ f.data) :
    ∀ (res res' : VResult),
      validateFieldsGo rm true data flds res = .ok res' →
      (∀ p ∈ flds, p.1 ≠ f) →
      (res'.errors.filter (fun e => e.field = f) =
        res.errors.filter (fun e => e.field = f)) ∧
      (res.is_valid = false → res'.is_valid = false) := by
  induction flds with
  | nil =>
      intro res res' hok _
      cases hok
      exact ⟨rfl, id⟩
  | cons p flds ih =>
      intro res res' hok hne
      obtain ⟨g, s⟩ := p
      simp only [validateFieldsGo] at hok
      cases hstep : stepField rm true data res g s with
      | error e => rw [hstep] at hok; cases hok
      | ok r =>
          rw [hstep] at hok
          have h1 := stepField_other rm data res r g s f hstep
            (hne (g, s) (by simp)) hbr
          have h2 := ih r res' hok (fun q hq => hne q (by simp [hq]))
          exact ⟨h2.1.trans h1.1, fun h0 => h2.2 (h1.2 h0)⟩

/-- A visible required field with a null or blank value records exactly the
required error and stops. -/
theorem stepField_required_hit (rm : String → String → Bool) (data : Data)
    (res : VResult) (f : String) (spec : FieldSpec)
    (hreq : spec.required = true)
    (hvis : isNullCond spec.condition = true ∨ evalCond spec.condition data 0 = .ok true)
    (hblank : isNullOrBlank ((assocGet data f).getD .vnull) = true) :
    stepField rm true data res f spec =
      .ok (addErrs res [⟨f, "El campo '" ++ spec.label.getD f ++ "' es requerido",
          "required", .vnull⟩]) := by
  have hbody : fieldBody rm true data res f spec =
      addErrs res [⟨f, "El campo '" ++ spec.label.getD f ++ "' es requerido",
          "required", .vnull⟩] := by
    unfold fieldBody
    rw [if_pos ⟨rfl, hreq, hblank⟩]
  unfold stepField
  rcases hvis with hnullc | heval
  · rw [if_pos hnullc, hbody]
  · by_cases hnullc : isNullCond spec.condition = true
    · rw [if_pos hnullc, hbody]
    · rw [if_neg hnullc, heval]
      simp [hbody]

/-- **C7.** For every field-spec list with unique names, every regex oracle
and every data mapping: if a field `f` (whose name, like every YAML field
name, contains no `[`) is required and visible (its condition absent or
true) and its value is null or a blank string, then a successful
validation run records exactly one error filed under `f` — the `required`
error with its localized message — no type or custom-rule check having
fired for `f`, and the aggregate result is invalid. -/
theorem C7_required_blank_exactly_one_error (rm : String → String → Bool)
    (data : Data) (pre post : List (String × FieldSpec)) (f : String)
    (spec : FieldSpec) (res : VResult)
    (hnodup : ((pre ++ (f, spec) :: post).map Prod.fst).Nodup)
    (hbr : '[' ∉ f.data)
    (hreq : spec.required = true)
    (hvis : isNullCond spec.condition = true ∨ evalCond spec.condition data 0 = .ok true)
    (hblank : isNullOrBlank ((assocGet data f).getD .vnull) = true)
    (hok : validateModel (pre ++ (f, spec) :: post) data true rm = .ok res) :
    res.errors.filter (fun e => e.field = f) =
      [⟨f, "El campo '" ++ spec.label.getD f ++ "' es requerido", "required", .vnull⟩] ∧
    res.is_valid = false := by
  have hnames : (∀ p ∈ pre, p.1 ≠ f) ∧ (∀ p ∈ post, p.1 ≠ f) := by
    rw [List.map_append, List.nodup_append] at hnodup
    obtain ⟨h1, h2, h3⟩ := hnodup
    constructor
    · intro p hp hpf
      exact h3 (List.mem_map_of_mem Prod.fst hp) (by simp [hpf])
    · intro p hp hpf
      rw [List.map_cons, List.nodup_cons] at h2
      exact h2.1 (show f ∈ List.map Prod.fst post from
        hpf ▸ List.mem_map_of_mem Prod.fst hp)
  unfold validateModel at hok
  rw [validateFieldsGo_append] at hok
  cases hpre : validateFieldsGo rm true data pre ⟨true, []⟩ with
  | error e => rw [hpre] at hok; cases hok
  | ok r1 =>
      rw [hpre] at hok
      simp only [validateFieldsGo] at hok
      rw [stepField_required_hit rm data r1 f spec hreq hvis hblank] at hok
      set r2 := addErrs r1 [⟨f, "El campo '" ++ spec.label.getD f ++ "' es requerido",
          "required", .vnull⟩] with hr2
      have hprefilter := validateFieldsGo_other rm data pre f hbr ⟨true, []⟩ r1
        hpre hnames.1
      have hpostfilter := validateFieldsGo_other rm data post f hbr r2 res
        hok hnames.2
      constructor
      · rw [hpostfilter.1, hr2]
        show (r1.errors ++ _).filter (fun e => e.field = f) = _
        rw [List.filter_append, hprefilter.1]
        simp
      · refine hpostfilter.2 ?_
        rw [hr2]
        show (r1.is_valid && _) = false
        simp

/-- The concrete required text field of the spec's Scenario E. -/
def c7Spec : FieldSpec :=
  ⟨.null, true, "text", some "Nombre del Cliente", [], [], none⟩

/-- Witness for C7 at Scenario E: a required `Nombre_Cliente` bound to the
empty string yields exactly the `required` error and an invalid result. -/
theorem C7_witness :
    ∃ res, validateModel [("Nombre_Cliente", c7Spec)]
        [("Nombre_Cliente", .vstr "")] true (fun _ _ => true) = .ok res ∧
      res.errors.filter (fun e => e.field = "Nombre_Cliente") =
        [⟨"Nombre_Cliente", "El campo 'Nombre del Cliente' es requerido",
          "required", .vnull⟩] ∧
      res.is_valid = false := by
  refine ⟨⟨false, [⟨"Nombre_Cliente", "El campo 'Nombre del Cliente' es requerido",
      "required", .vnull⟩]⟩, rfl, ?_⟩
  exact C7_required_blank_exactly_one_error (fun _ _ => true)
    [("Nombre_Cliente", .vstr "")] [] [] "Nombre_Cliente" c7Spec _
    (by simp) (by decide) rfl (Or.inl rfl) rfl rfl

/-! ## Renderer numbering repair (`src/modules/renderer_docx.py`) -/

/-- `re.match(r'^(\d+)\.\s+(.+)', text)` on the stripped paragraph text
(as `_fix_numbering` calls it): the digits, a dot, whitespace, then the
group-2 capture — the greedy `.+`, running to the first newline or the
end. -/
def mainMatch (t : String) : Option String :=
  let cs := t.data
  let digits := cs.takeWhile isAsciiDigit
  if digits.isEmpty then none
  else
    match cs.drop digits.length with
    | '.' :: rest =>
        let ws := rest.takeWhile isPySpace
        if ws.isEmpty then none
        else
          match rest.drop ws.length with
          | [] => none
          | rem => some ⟨rem.takeWhile (fun c => c ≠ '\n')⟩
    | _ => none

/-- `re.match(r'^[a-z]\.\s+(.+)', text)` on the stripped paragraph text. -/
def subMatch (t : String) : Option String :=
  match t.data with
  | c :: '.' :: rest =>
      if 'a' ≤ c ∧ c ≤ 'z' then
        let ws := rest.takeWhile isPySpace
        if ws.isEmpty then none
        else
          match rest.drop ws.length with
          | [] => none
          | rem => some ⟨rem.takeWhile (fun x => x ≠ '\n')⟩
      else none
  | _ => none

/-- The loop of `DocxRenderer._fix_numbering` over the document's
paragraph texts, carrying `current_number`, `sub_number` and
`in_sub_list` exactly as the source does: `in_sub_list` is reset only by a
main-numbered paragraph. -/
def fixNumberingGo : List String → Nat → Nat → Bool → List String
  | [], _, _, _ => []
  | p :: ps, currentNumber, subNumber, inSub =>
      let t := pyStrip p
      match mainMatch t with
      | some g =>
          (toString currentNumber ++ ". " ++ g) ::
            fixNumberingGo ps (currentNumber + 1) subNumber false
      | none =>
          match subMatch t with
          | some g =>
              let sn := if inSub then subNumber else 1
              (String.mk [Char.ofNat ('a'.toNat + sn - 1)] ++ ". " ++ g) ::
                fixNumberingGo ps currentNumber (sn + 1) true
          | none => p :: fixNumberingGo ps currentNumber subNumber inSub

/-- `DocxRenderer._fix_numbering`. -/
def fixNumbering (ps : List String) : List String := fixNumberingGo ps 1 1 false

/-- Count-based specification of the renumbering: a main-list paragraph
gets one plus the number of main-list paragraphs before it; a sub-list
paragraph gets the letter `'a' +` the number of sub-list paragraphs since
the last main-list paragraph (or the start) — intervening paragraphs that
are neither kind leave both counts untouched. -/
def renumberSpec : List String → Nat → Nat → List String
  | [], _, _ => []
  | p :: ps, mains, subsSinceMain =>
      let t := pyStrip p
      match mainMatch t with
      | some g =>
          (toString (mains + 1) ++ ". " ++ g) :: renumberSpec ps (mains + 1) 0
      | none =>
          match subMatch t with
          | some g =>
              (String.mk [Char.ofNat ('a'.toNat + subsSinceMain)] ++ ". " ++ g) ::
                renumberSpec ps mains (subsSinceMain + 1)
          | none => p :: renumberSpec ps mains subsSinceMain

/-- The loop agrees with the count-based specification under the state
invariant. -/
theorem fixNumberingGo_eq_spec :
    ∀ (ps : List String) (m k sn : Nat) (insub : Bool),
      (insub = true → sn = k + 1) → (insub = false → k = 0) →
      fixNumberingGo ps (m + 1) sn insub = renumberSpec ps m k := by
  intro ps
  induction ps with
  | nil => intro m k sn insub h1 h2; rfl
  | cons p ps ih =>
      intro m k sn insub h1 h2
      simp only [fixNumberingGo, renumberSpec]
      cases hm : mainMatch (pyStrip p) with
      | some g =>
          simp only []
          rw [ih (m + 1) 0 sn false (by intro h; cases h) (fun _ => rfl)]
      | none =>
          simp only []
          cases hs : subMatch (pyStrip p) with
          | some g =>
              have hsn : (if insub then sn else 1) = k + 1 := by
                cases insub with
                | true => simp [h1 rfl]
                | false => simp [h2 rfl]
              rw [hsn]
              have hletter : 'a'.toNat + (k + 1) - 1 = 'a'.toNat + k := by omega
              rw [hletter]
              rw [ih m (k + 1) (k + 1 + 1) true (fun _ => rfl) (by intro h; cases h)]
          | none =>
              rw [ih m k sn insub h1 h2]

/-- **C8 (counterexample to the claim as stated).** The paragraph `"foo"`
is neither a main-list nor a sub-list paragraph, yet the sub-counter does
*not* restart across it: the second sub-run continues with `b.` instead of
restarting at `a.`. -/
theorem C8_counterexample :
    mainMatch "foo" = none ∧ subMatch "foo" = none ∧ subMatch "a. y" = some "y" ∧
    fixNumbering ["a. x", "foo", "a. y"] = ["a. x", "foo", "b. y"] :=
  ⟨rfl, rfl, rfl, rfl⟩

/-- **C8 (amended).** `_fix_numbering` renumbers every `"<digits>. <text>"`
paragraph sequentially from 1 regardless of its original digits, and every
`"<lowercase>. <text>"` paragraph with `a., b., c., …` — where the
sub-counter counts the sub-list paragraphs since the last main-list
paragraph (or the start): it restarts only when a main-numbered paragraph
intervenes, while other intervening paragraphs leave the sub-counter run
state unchanged. -/
theorem C8_numbering_repair (ps : List String) :
    fixNumbering ps = renumberSpec ps 0 0 :=
  fixNumberingGo_eq_spec ps 0 0 1 false (by intro h; cases h) (fun _ => rfl)

/-! ## Generation orchestrator (`src/modules/generate.py`) -/

/-- A raised Python exception, as the orchestrator's `except` clauses
distinguish them: `FileNotFoundError` versus everything else. -/
inductive PyExc where
  | fileNotFound (msg : String)
  | other (msg : String)
deriving DecidableEq, Repr

/-- `GenerationResult` dataclass (durations are wall-clock and modelled
as 0). -/
structure GenerationResult where
  success : Bool
  output_path : Option String
  trace_id : String
  validation_errors : List String
  evaluation_traces : List EvaluationTrace
  error : Option String
  duration_ms : Int

/-- Python type names, for the `AttributeError` message of the filename
computation. -/
def pyTypeName : Value → String
  | .vnull => "NoneType"
  | .vbool _ => "bool"
  | .vint _ => "int"
  | .vnum _ => "float"
  | .vstr _ => "str"
  | .vlist _ => "list"
  | .vdict _ => "dict"
  | .vdate _ _ _ => "datetime.date"

/-- The renderer's externally-visible stages.  Modelled from the spec: the
template provider (the docx `Document` open, a library external to the
repository) is an interface-only collaborator whose missing-template
failure surfaces as the distinct `FileNotFoundError` of the spec's failure
taxonomy; `processing` stands for steps 2–7 (context building, rule
evaluation, docx tree manipulation); `save` (step 8) is the renderer's
only file write and runs last, after all processing. -/
structure RenderEnv where
  templateLoad : Except PyExc Unit
  processing : Except PyExc (List EvaluationTrace)
  save : Except PyExc Unit

/-- `DocxRenderer.render` at stage granularity: the outcome, paired with
the list of files written (the save writes the output file only when every
earlier stage succeeded). -/
def modelRender (env : RenderEnv) (outputPath : String) :
    Except PyExc (String × List EvaluationTrace) × List String :=
  match env.templateLoad with
  | .error e => (.error e, [])
  | .ok () =>
      match env.processing with
      | .error e => (.error e, [])
      | .ok traces =>
          match env.save with
          | .error e => (.error e, [])
          | .ok () => (.ok (outputPath, traces), [outputPath])

/-- The orchestration environment: the outcome of plugin loading plus
`preprocess_input` (steps 1–2, YAML file I/O included), the loaded field
specs and regex oracle feeding the embedded validator (step 3), the
renderer stages, and the run's fresh trace id and `%Y%m%d` stamp. -/
structure GenEnv where
  loadAndPreprocess : Except PyExc Data
  fieldsCfg : List (String × FieldSpec)
  reMatch : String → String → Bool
  renderEnv : RenderEnv
  traceId : String
  todayStamp : String

/-- `s[:n]`. -/
def strTake (s : String) (n : Nat) : String := ⟨s.data.take n⟩

/-- The two `except` handlers of `generate`: `FileNotFoundError` becomes
the distinct template message, anything else surfaces `str(e)`. -/
def excResult (traceId : String) : PyExc → GenerationResult
  | .fileNotFound m =>
      { success := false, output_path := none, trace_id := traceId,
        validation_errors := [], evaluation_traces := [],
        error := some ("Template not found / Plantilla no encontrada: " ++ m),
        duration_ms := 0 }
  | .other m =>
      { success := false, output_path := none, trace_id := traceId,
        validation_errors := [], evaluation_traces := [],
        error := some m, duration_ms := 0 }

/-- The output filename: the prefix form, or the client-name form (a
non-string `Nombre_Cliente` raises an `AttributeError` on `.replace`). -/
def computeFilename (env : GenEnv) (data : Data) (filenamePrefix : Option String) :
    Except PyExc String :=
  match filenamePrefix with
  | some pfx => .ok (pfx ++ "_" ++ strTake env.traceId 8 ++ ".docx")
  | none =>
      match (assocGet data "Nombre_Cliente").getD (.vstr "documento") with
      | .vstr s =>
          .ok ("Carta_Manifestacion_" ++ strReplace (strReplace s " " "_") "/" "_" ++
            "_" ++ env.todayStamp ++ ".docx")
      | v => .error (.other ("'" ++ pyTypeName v ++ "' object has no attribute 'replace'"))

/-- Step 3 of `generate`: run the validator when requested; a raised
`DSLEvaluationError` is an ordinary exception for the orchestrator;
`some msgs` is a failed validation with its formatted messages. -/
def runValidation (env : GenEnv) (data : Data) (shouldValidate : Bool) :
    Except PyExc (Option (List String)) :=
  if shouldValidate then
    match validateModel env.fieldsCfg data true env.reMatch with
    | .error de => .error (.other (dslErrMsg de))
    | .ok vres =>
        if vres.is_valid then .ok none
        else .ok (some (vres.errors.map (fun e => e.field ++ ": " ++ e.message)))
  else .ok none

/-- `generate(...)`: a total function — every failure mode comes back as a
`GenerationResult`, never as an exception.  Returns the result together
with the list of files written. -/
def generateModel (env : GenEnv) (outputDir : String) (shouldValidate : Bool)
    (filenamePrefix : Option String) : GenerationResult × List String :=
  match env.loadAndPreprocess with
  | .error e => (excResult env.traceId e, [])
  | .ok data =>
      match runValidation env data shouldValidate with
      | .error e => (excResult env.traceId e, [])
      | .ok (some msgs) =>
          ({ success := false, output_path := none, trace_id := env.traceId,
             validation_errors := msgs, evaluation_traces := [],
             error := some "Validation failed / Validacion fallida",
             duration_ms := 0 }, [])
      | .ok none =>
          match computeFilename env data filenamePrefix with
          | .error e => (excResult env.traceId e, [])
          | .ok filename =>
              let outputPath := outputDir ++ "/" ++ filename
              match modelRender env.renderEnv outputPath with
              | (.ok pt, writes) =>
                  ({ success := true, output_path := some pt.1, trace_id := env.traceId,
                     validation_errors := [], evaluation_traces := pt.2,
                     error := none, duration_ms := 0 }, writes)
              | (.error e, writes) => (excResult env.traceId e, writes)

/-- **C3.** `generate` returns a `GenerationResult` for every failure mode
(the model is a total function — nothing propagates): (i) a failed
validation returns `success = false` carrying the structured
validation-error list, the `Validation failed` summary, and writes no
file; (ii) a missing template file returns `success = false` with the
distinct template-not-found message and writes no file; (iii) any other
exception — at the loading/preprocessing stage or inside the renderer's
processing — is caught and its message is captured verbatim in the
result's `error` field (and an exception before the final save leaves no
partial output file). -/
theorem C3_generate_returns_results (env : GenEnv) (outputDir : String)
    (filenamePrefix : Option String) :
    (∀ d vres, env.loadAndPreprocess = .ok d →
      validateModel env.fieldsCfg d true env.reMatch = .ok vres →
      vres.is_valid = false →
      generateModel env outputDir true filenamePrefix =
        ({ success := false, output_path := none, trace_id := env.traceId,
           validation_errors := vres.errors.map (fun e => e.field ++ ": " ++ e.message),
           evaluation_traces := [],
           error := some "Validation failed / Validacion fallida",
           duration_ms := 0 }, [])) ∧
    (∀ d fn m shouldValidate, env.loadAndPreprocess = .ok d →
      runValidation env d shouldValidate = .ok none →
      computeFilename env d filenamePrefix = .ok fn →
      env.renderEnv.templateLoad = .error (.fileNotFound m) →
      generateModel env outputDir shouldValidate filenamePrefix =
        (excResult env.traceId (.fileNotFound m), []) ∧
      (excResult env.traceId (.fileNotFound m)).success = false ∧
      (excResult env.traceId (.fileNotFound m)).error =
        some ("Template not found / Plantilla no encontrada: " ++ m)) ∧
    (∀ m shouldValidate, env.loadAndPreprocess = .error (.other m) →
      generateModel env outputDir shouldValidate filenamePrefix =
        (excResult env.traceId (.other m), []) ∧
      (excResult env.traceId (.other m)).success = false ∧
      (excResult env.traceId (.other m)).error = some m) ∧
    (∀ d fn m shouldValidate, env.loadAndPreprocess = .ok d →
      runValidation env d shouldValidate = .ok none →
      computeFilename env d filenamePrefix = .ok fn →
      env.renderEnv.templateLoad = .ok () →
      env.renderEnv.processing = .error (.other m) →
      generateModel env outputDir shouldValidate filenamePrefix =
        (excResult env.traceId (.other m), []) ∧
      (excResult env.traceId (.other m)).success = false ∧
      (excResult env.traceId (.other m)).error = some m) := by
  refine ⟨?_, ?_, ?_, ?_⟩
  · intro d vres hload hval hinvalid
    simp only [generateModel, hload, runValidation, if_pos, hval, hinvalid]
    rfl
  · intro d fn m shouldValidate hload hvalok hfn htpl
    exact ⟨by simp only [generateModel, hload, hvalok, hfn, modelRender, htpl], rfl, rfl⟩
  · intro m shouldValidate hload
    exact ⟨by simp only [generateModel, hload], rfl, rfl⟩
  · intro d fn m shouldValidate hload hvalok hfn htpl hproc
    exact ⟨by simp only [generateModel, hload, hvalok, hfn, modelRender, htpl, hproc],
      rfl, rfl⟩

/-- A renderer whose template load fails with `FileNotFoundError`. -/
def c3RenderMissing : RenderEnv := ⟨.error (.fileNotFound "tpl.docx"), .ok [], .ok ()⟩

/-- An environment hitting the missing-template path. -/
def c3EnvTpl : GenEnv :=
  ⟨.ok [], [], (fun _ _ => true), c3RenderMissing, "trace123", "20261012"⟩

/-- An environment hitting the validation-failure path (a required field
with no data). -/
def c3EnvVal : GenEnv :=
  ⟨.ok [], [("Nombre_Cliente", c7Spec)], (fun _ _ => true),
    ⟨.ok (), .ok [], .ok ()⟩, "trace456", "20261012"⟩

/-- Witness for C3: the template-missing and validation-failure branches
at concrete environments, via the theorem. -/
theorem C3_witness :
    (generateModel c3EnvTpl "out" false (some "doc") =
        (excResult c3EnvTpl.traceId (.fileNotFound "tpl.docx"), []) ∧
      (excResult c3EnvTpl.traceId (.fileNotFound "tpl.docx")).success = false ∧
      (excResult c3EnvTpl.traceId (.fileNotFound "tpl.docx")).error =
        some ("Template not found / Plantilla no encontrada: " ++ "tpl.docx")) ∧
    generateModel c3EnvVal "out" true none =
      ({ success := false, output_path := none, trace_id := "trace456",
         validation_errors :=
           ["Nombre_Cliente: El campo 'Nombre del Cliente' es requerido"],
         evaluation_traces := [],
         error := some "Validation failed / Validacion fallida",
         duration_ms := 0 }, []) :=
  ⟨(C3_generate_returns_results c3EnvTpl "out" (some "doc")).2.1 [] "doc_trace123.docx"
      "tpl.docx" false rfl rfl rfl rfl,
   (C3_generate_returns_results c3EnvVal "out" none).1 []
      ⟨false, [⟨"Nombre_Cliente", "El campo 'Nombre del Cliente' es requerido",
        "required", .vnull⟩]⟩ rfl rfl rfl⟩

end Carta
